import Mathlib

/-!
Verification of the docsend-bot repository (gated document capture and
assembly engine).  Each section embeds one group of source functions as
executable Lean definitions and proves or refutes the specification
claims about them.
-/

namespace DocsendBot

/-!
## Rate-limited job scheduler
Embedding of `src/utils/rateLimiter.js` (and the variant at
`src/unnamed/part_002`).  Both variants build two `RateLimiterMemory`
instances from the `rate-limiter-flexible` library: a global limiter
(`points = maxConcurrentJobs`, `duration = 1` second) keyed by the
constant string `"global"`, and a per-user limiter (`points = 1`,
`duration = userCooldownSeconds`).  The library's `consume` uses a
fixed window per key: the first consume in a window stores count 1 and
an expiry `now + duration`; later consumes in the window increment the
count without moving the expiry; a consume whose new count exceeds
`points` REJECTS (the promise throws a `RateLimiterRes`), while a
successful consume resolves with `remainingPoints = points - count ≥ 0`.
Times are in milliseconds.
-/

/-- One fixed-window record of `RateLimiterMemory`: hit count and window
expiry time in ms. -/
structure LimiterRecord where
  count : Nat
  expiresAt : Nat
  deriving Repr, DecidableEq

/-- A `RateLimiterMemory` instance: configured points, window duration in
ms, and the per-key records. -/
structure MemLimiter where
  points : Nat
  durationMs : Nat
  records : List (String × LimiterRecord)
  deriving Repr, DecidableEq

/-- Result of one `consume` call: `ok = true` means the promise resolved,
`ok = false` means it rejected (threw).  `remainingPoints` is an `Int`
because the JavaScript callers compare it against 0. -/
structure ConsumeOutcome where
  ok : Bool
  remainingPoints : Int
  msBeforeNext : Nat
  deriving Repr, DecidableEq

/-- Look a key up in the record store. -/
def recFind (rs : List (String × LimiterRecord)) (k : String) : Option LimiterRecord :=
  match rs with
  | [] => none
  | (k2, r) :: rest => if k2 = k then some r else recFind rest k

/-- Store a record under a key, replacing any existing record. -/
def recSet (rs : List (String × LimiterRecord)) (k : String) (v : LimiterRecord) :
    List (String × LimiterRecord) :=
  match rs with
  | [] => [(k, v)]
  | (k2, r) :: rest => if k2 = k then (k2, v) :: rest else (k2, r) :: recSet rest k v

/-- The window record a `consume(key)` call at time `now` writes back:
reuse the current window when it has not expired, otherwise start a
fresh one. -/
def nextRecord (L : MemLimiter) (key : String) (now : Nat) : LimiterRecord :=
  match recFind L.records key with
  | none => { count := 1, expiresAt := now + L.durationMs }
  | some r =>
      if r.expiresAt ≤ now then { count := 1, expiresAt := now + L.durationMs }
      else { r with count := r.count + 1 }

/-- `rate-limiter-flexible` `consume(key)` on a memory limiter at time
`now`: reject exactly when the new count exceeds the configured points.
The store is updated in both cases. -/
def consume (L : MemLimiter) (key : String) (now : Nat) : ConsumeOutcome × MemLimiter :=
  if (nextRecord L key now).count ≤ L.points then
    ({ ok := true, remainingPoints := (L.points : Int) - ((nextRecord L key now).count : Int),
       msBeforeNext := (nextRecord L key now).expiresAt - now },
     { L with records := recSet L.records key (nextRecord L key now) })
  else
    ({ ok := false, remainingPoints := 0,
       msBeforeNext := (nextRecord L key now).expiresAt - now },
     { L with records := recSet L.records key (nextRecord L key now) })

/-- Process-wide scheduler state: the two limiters plus the `activeJobs`
set (kept as a duplicate-free list in insertion order). -/
structure RateLimiterState where
  globalLimiter : MemLimiter
  userLimiter : MemLimiter
  activeJobs : List String
  deriving Repr, DecidableEq

/-- The value returned by `canStartJob`. -/
structure StartCheck where
  allowed : Bool
  reason : String
  retryAfter : Option Nat
  deriving Repr, DecidableEq

/-- `canStartJob(userId)`: consume the global key first, then the user
key.  A rejected consume throws, so control reaches the `catch` block,
which returns `allowed: false` with the generic reason and NO
`retryAfter`; the `remainingPoints < 0` checks sit after a successful
consume and are kept here exactly as written in the source.  The user
key is `"user_" + userId` in the part_002 variant; the
`src/utils/rateLimiter.js` variant passes `userId` itself (the
`keyGenerator` option is ignored by `consume`), so both are keyed
injectively by the requester identity.  `userKey` abstracts that
difference. -/
def canStartJobWith (userKey : String → String) (s : RateLimiterState) (userId : String)
    (now : Nat) : StartCheck × RateLimiterState :=
  if !(consume s.globalLimiter "global" now).1.ok then
    ({ allowed := false, reason := "Rate limiter error", retryAfter := none },
     { s with globalLimiter := (consume s.globalLimiter "global" now).2 })
  else if (consume s.globalLimiter "global" now).1.remainingPoints < 0 then
    ({ allowed := false, reason := "Too many concurrent jobs",
       retryAfter := some (consume s.globalLimiter "global" now).1.msBeforeNext },
     { s with globalLimiter := (consume s.globalLimiter "global" now).2 })
  else if !(consume s.userLimiter (userKey userId) now).1.ok then
    ({ allowed := false, reason := "Rate limiter error", retryAfter := none },
     { s with globalLimiter := (consume s.globalLimiter "global" now).2,
              userLimiter := (consume s.userLimiter (userKey userId) now).2 })
  else if (consume s.userLimiter (userKey userId) now).1.remainingPoints < 0 then
    ({ allowed := false, reason := "Please wait before starting another job",
       retryAfter := some (consume s.userLimiter (userKey userId) now).1.msBeforeNext },
     { s with globalLimiter := (consume s.globalLimiter "global" now).2,
              userLimiter := (consume s.userLimiter (userKey userId) now).2 })
  else
    ({ allowed := true, reason := "", retryAfter := none },
     { s with globalLimiter := (consume s.globalLimiter "global" now).2,
              userLimiter := (consume s.userLimiter (userKey userId) now).2 })

/-- `canStartJob` as in `src/unnamed/part_002` (user key `"user_" + userId`). -/
def canStartJob (s : RateLimiterState) (userId : String) (now : Nat) :
    StartCheck × RateLimiterState :=
  canStartJobWith (fun u => "user_" ++ u) s userId now

/-- `startJob(jobId, userId)`: add the job id to the `activeJobs` set.
It does not touch either limiter. -/
def startJob (s : RateLimiterState) (jobId : String) : RateLimiterState :=
  { s with activeJobs := if jobId ∈ s.activeJobs then s.activeJobs else s.activeJobs ++ [jobId] }

/-- `finishJob(jobId, userId)`: remove the job id from the `activeJobs`
set.  It does not touch either limiter, so releasing a job never restores
admission capacity. -/
def finishJob (s : RateLimiterState) (jobId : String) : RateLimiterState :=
  { s with activeJobs := s.activeJobs.erase jobId }

/-- Security configuration (`config.security`): the allow-lists are
`null` when the environment variables are unset. -/
structure SecurityConfig where
  allowedUsers : Option (List String)
  allowedChannels : Option (List String)
  deriving Repr, DecidableEq

/-- `hasPermission(userId, channelId)` from `src/utils/rateLimiter.js`:
enforce the user allow-list, then the channel allow-list; an empty or
absent list enforces nothing. -/
def hasPermission (cfg : SecurityConfig) (userId channelId : String) : Bool :=
  if (match cfg.allowedUsers with
      | some us => 0 < us.length && !(us.contains userId)
      | none => false) then
    false
  else if (match cfg.allowedChannels with
      | some cs => 0 < cs.length && !(cs.contains channelId)
      | none => false) then
    false
  else
    true

/-- `hasPermission(userId, channelId)` from `src/unnamed/part_002`: the
body starts with `return true` ("Temporarily allow all users for
testing"); the allow-list checks that follow are commented out, so the
function is constantly `true`. -/
def hasPermissionTestingBypass (_cfg : SecurityConfig) (_userId _channelId : String) : Bool :=
  true

/-- Scheduler state with the default configuration
(MAX_CONCURRENT_JOBS = 3, USER_COOLDOWN_SECONDS = 60) and no history. -/
def freshSchedulerState : RateLimiterState :=
  { globalLimiter := { points := 3, durationMs := 1000, records := [] }
  , userLimiter := { points := 1, durationMs := 60000, records := [] }
  , activeJobs := [] }

/-- Run one admission and record the started job, as the slash-command
handler does (`canStartJob` then `startJob`). -/
def admitAndStart (s : RateLimiterState) (userId jobId : String) (now : Nat) :
    StartCheck × RateLimiterState :=
  let r := canStartJob s userId now
  if r.1.allowed then (r.1, startJob r.2 jobId) else r

/-- Every record a memory limiter stores has a hit count of at least 1
(records are only ever created with count 1 and counts only grow). -/
def CountsWF (L : MemLimiter) : Prop := ∀ p ∈ L.records, 1 ≤ p.2.count

/-- At time `now`, every stored window expires within one duration
(records are only ever created at some time ≤ `now` with expiry
`creation + durationMs`). -/
def ExpiryWF (L : MemLimiter) (now : Nat) : Prop :=
  ∀ p ∈ L.records, p.2.expiresAt ≤ now + L.durationMs

theorem recFind_recSet_self (rs : List (String × LimiterRecord)) (k : String)
    (v : LimiterRecord) : recFind (recSet rs k v) k = some v := by
  induction rs with
  | nil => simp [recSet, recFind]
  | cons hd tl ih =>
    by_cases h : hd.1 = k
    · simp [recSet, recFind, h]
    · simp [recSet, recFind, h, ih]

theorem recFind_mem (rs : List (String × LimiterRecord)) (k : String) (r : LimiterRecord)
    (h : recFind rs k = some r) : (k, r) ∈ rs := by
  induction rs with
  | nil => simp [recFind] at h
  | cons hd tl ih =>
    obtain ⟨a, b⟩ := hd
    by_cases hk : a = k
    · subst hk
      simp [recFind] at h
      subst h
      exact List.mem_cons_self _ _
    · simp [recFind, hk] at h
      exact List.mem_cons_of_mem _ (ih h)

theorem recFind_recSet_ne (rs : List (String × LimiterRecord)) (k k2 : String)
    (v : LimiterRecord) (h : k ≠ k2) : recFind (recSet rs k v) k2 = recFind rs k2 := by
  induction rs with
  | nil => simp [recSet, recFind, h]
  | cons hd tl ih =>
    obtain ⟨a, b⟩ := hd
    by_cases hk : a = k
    · subst hk
      simp [recSet, recFind, h]
    · simp [recSet, recFind, hk, ih]

theorem consume_ok_iff (L : MemLimiter) (key : String) (now : Nat) :
    (consume L key now).1.ok = true ↔ (nextRecord L key now).count ≤ L.points := by
  unfold consume
  split_ifs with h <;> simp [h]

theorem consume_state (L : MemLimiter) (key : String) (now : Nat) :
    (consume L key now).2 = { L with records := recSet L.records key (nextRecord L key now) } := by
  unfold consume
  split_ifs <;> rfl

theorem consume_ok_remaining (L : MemLimiter) (key : String) (now : Nat)
    (h : (consume L key now).1.ok = true) : 0 ≤ (consume L key now).1.remainingPoints := by
  have hc : (nextRecord L key now).count ≤ L.points := (consume_ok_iff L key now).mp h
  unfold consume
  rw [if_pos hc]
  show (0 : Int) ≤ (L.points : Int) - ((nextRecord L key now).count : Int)
  omega

theorem nextRecord_count_pos (L : MemLimiter) (key : String) (now : Nat) :
    1 ≤ (nextRecord L key now).count := by
  unfold nextRecord
  cases recFind L.records key with
  | none => simp
  | some r =>
    by_cases hE : r.expiresAt ≤ now <;> simp [hE]

theorem nextRecord_expiry_le (L : MemLimiter) (key : String) (now : Nat)
    (hWF : ExpiryWF L now) : (nextRecord L key now).expiresAt ≤ now + L.durationMs := by
  unfold nextRecord
  cases hF : recFind L.records key with
  | none => simp
  | some r =>
    by_cases hE : r.expiresAt ≤ now
    · simp [hE]
    · simpa [hE] using hWF _ (recFind_mem _ _ _ hF)

theorem canStartJob_allowed_iff (uk : String → String) (s : RateLimiterState) (uid : String)
    (now : Nat) :
    (canStartJobWith uk s uid now).1.allowed = true ↔
      ((consume s.globalLimiter "global" now).1.ok = true ∧
       (consume s.userLimiter (uk uid) now).1.ok = true) := by
  unfold canStartJobWith
  split_ifs with h1 h2 h3 h4
  · simp only [Bool.not_eq_true'] at h1
    simp [h1]
  · exfalso
    simp only [Bool.not_eq_true'] at h1
    have := consume_ok_remaining s.globalLimiter "global" now (by simpa using h1)
    omega
  · simp only [Bool.not_eq_true'] at h3
    simp [h3]
  · exfalso
    simp only [Bool.not_eq_true'] at h3
    have := consume_ok_remaining s.userLimiter (uk uid) now (by simpa using h3)
    omega
  · simp only [Bool.not_eq_true'] at h1 h3
    simp [h1, h3]

theorem canStartJob_state_of_allowed (uk : String → String) (s : RateLimiterState)
    (uid : String) (now : Nat) (h : (canStartJobWith uk s uid now).1.allowed = true) :
    (canStartJobWith uk s uid now).2 =
      { s with globalLimiter := (consume s.globalLimiter "global" now).2,
               userLimiter := (consume s.userLimiter (uk uid) now).2 } := by
  unfold canStartJobWith at *
  split_ifs at * <;> simp_all

theorem canStartJob_userLimiter_cases (uk : String → String) (s : RateLimiterState)
    (uid : String) (now : Nat) :
    ((canStartJobWith uk s uid now).2).userLimiter = (consume s.userLimiter (uk uid) now).2 ∨
    ((canStartJobWith uk s uid now).2).userLimiter = s.userLimiter := by
  unfold canStartJobWith
  split_ifs <;> simp

theorem user_record_after_allow (s : RateLimiterState) (u : String) (t : Nat)
    (hP : s.userLimiter.points = 1) (hWF : CountsWF s.userLimiter)
    (hAdm : (canStartJob s u t).1.allowed = true) :
    nextRecord s.userLimiter ("user_" ++ u) t =
      { count := 1, expiresAt := t + s.userLimiter.durationMs } := by
  have hok := ((canStartJob_allowed_iff _ s u t).mp hAdm).2
  rw [consume_ok_iff] at hok
  unfold nextRecord at *
  cases hF : recFind s.userLimiter.records ("user_" ++ u) with
  | none => simp [hF]
  | some r =>
    by_cases hE : r.expiresAt ≤ t
    · simp [hF, hE]
    · exfalso
      have h1 : 1 ≤ r.count := hWF _ (recFind_mem _ _ _ hF)
      simp [hF, hE] at hok
      omega

theorem cooldown_denies_within_window (s : RateLimiterState) (u : String) (t t2 : Nat)
    (hP : s.userLimiter.points = 1) (hWF : CountsWF s.userLimiter)
    (hAdm : (canStartJob s u t).1.allowed = true)
    (hT : t2 < t + s.userLimiter.durationMs) :
    (canStartJob (canStartJob s u t).2 u t2).1.allowed = false := by
  have hstate := canStartJob_state_of_allowed _ s u t hAdm
  have hu : ((canStartJob s u t).2).userLimiter =
      { s.userLimiter with
        records := recSet s.userLimiter.records ("user_" ++ u)
          { count := 1, expiresAt := t + s.userLimiter.durationMs } } := by
    rw [show (canStartJob s u t).2 = (canStartJobWith (fun x => "user_" ++ x) s u t).2 from rfl,
       hstate]
    simp only [consume_state]
    rw [user_record_after_allow s u t hP hWF hAdm]
  have hrec : nextRecord ((canStartJob s u t).2).userLimiter ("user_" ++ u) t2 =
      { count := 2, expiresAt := t + s.userLimiter.durationMs } := by
    unfold nextRecord
    rw [hu]
    simp only [recFind_recSet_self]
    rw [if_neg (by omega)]
  have hno : (consume ((canStartJob s u t).2).userLimiter ("user_" ++ u) t2).1.ok = false := by
    rw [Bool.eq_false_iff]
    intro hok
    rw [consume_ok_iff, hrec] at hok
    have hpts : ((canStartJob s u t).2).userLimiter.points = 1 := by rw [hu]; exact hP
    simp [hpts] at hok
  cases hA : (canStartJob (canStartJob s u t).2 u t2).1.allowed with
  | false => rfl
  | true =>
    exfalso
    have := ((canStartJob_allowed_iff _ ((canStartJob s u t).2) u t2).mp hA).2
    rw [hno] at this
    exact Bool.false_ne_true this

theorem cooldown_allows_after_window (s : RateLimiterState) (u : String) (t t2 : Nat)
    (hG : 1 ≤ s.globalLimiter.points)
    (hWFg : ExpiryWF s.globalLimiter t) (hWFu : ExpiryWF s.userLimiter t)
    (hAdm : (canStartJob s u t).1.allowed = true)
    (h2 : t + s.userLimiter.durationMs ≤ t2)
    (h3 : t + s.globalLimiter.durationMs ≤ t2) :
    (canStartJob (canStartJob s u t).2 u t2).1.allowed = true := by
  have hstate := canStartJob_state_of_allowed _ s u t hAdm
  have hup : 1 ≤ s.userLimiter.points := by
    have hok := ((canStartJob_allowed_iff _ s u t).mp hAdm).2
    rw [consume_ok_iff] at hok
    calc 1 ≤ (nextRecord s.userLimiter ("user_" ++ u) t).count := nextRecord_count_pos _ _ _
    _ ≤ s.userLimiter.points := hok
  have hge : ((canStartJob s u t).2).globalLimiter =
      { s.globalLimiter with
        records := recSet s.globalLimiter.records "global" (nextRecord s.globalLimiter "global" t) } := by
    rw [show (canStartJob s u t).2 = (canStartJobWith (fun x => "user_" ++ x) s u t).2 from rfl,
       hstate]
    simp [consume_state]
  have hue : ((canStartJob s u t).2).userLimiter =
      { s.userLimiter with
        records := recSet s.userLimiter.records ("user_" ++ u)
          (nextRecord s.userLimiter ("user_" ++ u) t) } := by
    rw [show (canStartJob s u t).2 = (canStartJobWith (fun x => "user_" ++ x) s u t).2 from rfl,
       hstate]
    simp [consume_state]
  rw [show canStartJob (canStartJob s u t).2 u t2 =
      canStartJobWith (fun x => "user_" ++ x) (canStartJob s u t).2 u t2 from rfl,
    canStartJob_allowed_iff]
  constructor
  · rw [consume_ok_iff]
    have hexp : (nextRecord s.globalLimiter "global" t).expiresAt ≤ t2 :=
      le_trans (nextRecord_expiry_le _ _ _ hWFg) h3
    unfold nextRecord
    rw [hge]
    simp only [recFind_recSet_self]
    rw [if_pos hexp]
    simpa using hG
  · rw [consume_ok_iff]
    have hexp : (nextRecord s.userLimiter ("user_" ++ u) t).expiresAt ≤ t2 :=
      le_trans (nextRecord_expiry_le _ _ _ hWFu) h2
    unfold nextRecord
    rw [hue]
    simp only [recFind_recSet_self]
    rw [if_pos hexp]
    simpa using hup

theorem user_key_injective (u v : String) (h : u ≠ v) : ("user_" ++ u) ≠ ("user_" ++ v) := by
  intro he
  apply h
  have hd := congrArg String.data he
  simp only [String.data_append] at hd
  have h2 := List.append_cancel_left hd
  cases u
  cases v
  exact congrArg String.mk h2

theorem cooldown_keyed_per_requester (s : RateLimiterState) (u v : String) (t : Nat)
    (hne : u ≠ v) :
    recFind ((canStartJob s u t).2).userLimiter.records ("user_" ++ v) =
      recFind s.userLimiter.records ("user_" ++ v) := by
  rcases canStartJob_userLimiter_cases (fun x => "user_" ++ x) s u t with h | h <;>
    rw [show (canStartJob s u t).2 = (canStartJobWith (fun x => "user_" ++ x) s u t).2 from rfl, h]
  · rw [consume_state]
    exact recFind_recSet_ne _ _ _ _ (user_key_injective u v hne)

theorem admission_ignores_job_outcomes (s s2 : RateLimiterState) (u : String) (now : Nat)
    (hg : s.globalLimiter = s2.globalLimiter) (hu : s.userLimiter = s2.userLimiter) :
    (canStartJob s u now).1 = (canStartJob s2 u now).1 := by
  unfold canStartJob canStartJobWith
  rw [hg, hu]
  split_ifs <;> rfl

/-- Scheduler state after three admissions (ceiling 3) at time 0, none
of them released. -/
def schedAfterThree : RateLimiterState :=
  (admitAndStart
    (admitAndStart
      (admitAndStart freshSchedulerState "alice" "j1" 0).2 "bob" "j2" 0).2 "carol" "j3" 0).2

/-- C2: the global in-flight ceiling is not enforced by `canStartJob`.
With the ceiling (3) filled by unreleased admissions at time 0: (i) a
fourth attempt inside the limiter's 1-second window is denied, but
through the generic `catch` branch — reason "Rate limiter error" and no
`retryAfter` hint (`consume` rejects by throwing, so the intended
"Too many concurrent jobs" branch with its retry hint is unreachable);
(ii) a fourth attempt after the 1-second window is ADMITTED although all
three jobs are still in flight; (iii) releasing a job (`finishJob`) does
not change the denial, because `finishJob` never touches either limiter. -/
theorem c2_global_ceiling_not_enforced :
    ((admitAndStart freshSchedulerState "alice" "j1" 0).1.allowed = true
      ∧ (admitAndStart (admitAndStart freshSchedulerState "alice" "j1" 0).2
          "bob" "j2" 0).1.allowed = true
      ∧ (admitAndStart
          (admitAndStart (admitAndStart freshSchedulerState "alice" "j1" 0).2
            "bob" "j2" 0).2 "carol" "j3" 0).1.allowed = true)
    ∧ (canStartJob schedAfterThree "dave" 500).1 =
        { allowed := false, reason := "Rate limiter error", retryAfter := none }
    ∧ (canStartJob schedAfterThree "dave" 1500).1.allowed = true
    ∧ (canStartJob (finishJob schedAfterThree "j1") "dave" 500).1.allowed = false
    ∧ (∀ s j, (finishJob s j).globalLimiter = s.globalLimiter
        ∧ (finishJob s j).userLimiter = s.userLimiter) :=
  ⟨⟨by decide, by decide, by decide⟩, by decide, by decide, by decide,
   fun _ _ => ⟨rfl, rfl⟩⟩

/-- C7: the per-requester cooldown.  (i) After an admission of requester
`u` at time `t`, any second attempt by `u` strictly inside the cooldown
window is denied (in any well-formed scheduler state, with the
configured 1 user point).  (ii) Once both fixed windows have elapsed,
the next attempt by `u` succeeds (given at least one global point).
(iii) The cooldown is keyed strictly per requester: an admission of `u`
leaves every other requester's cooldown record untouched.  (iv) The
admission decision depends only on the two limiters, never on the
`activeJobs` bookkeeping that job completion (`finishJob`) updates, and
`finishJob` leaves both limiters unchanged — so the cooldown is
independent of the success or failure of the prior job. -/
theorem c7_per_requester_cooldown :
    (∀ (s : RateLimiterState) (u : String) (t t2 : Nat),
        s.userLimiter.points = 1 → CountsWF s.userLimiter →
        (canStartJob s u t).1.allowed = true → t2 < t + s.userLimiter.durationMs →
        (canStartJob (canStartJob s u t).2 u t2).1.allowed = false)
    ∧ (∀ (s : RateLimiterState) (u : String) (t t2 : Nat),
        1 ≤ s.globalLimiter.points →
        ExpiryWF s.globalLimiter t → ExpiryWF s.userLimiter t →
        (canStartJob s u t).1.allowed = true →
        t + s.userLimiter.durationMs ≤ t2 → t + s.globalLimiter.durationMs ≤ t2 →
        (canStartJob (canStartJob s u t).2 u t2).1.allowed = true)
    ∧ (∀ (s : RateLimiterState) (u v : String) (t : Nat), u ≠ v →
        recFind ((canStartJob s u t).2).userLimiter.records ("user_" ++ v) =
          recFind s.userLimiter.records ("user_" ++ v))
    ∧ (∀ (s s2 : RateLimiterState) (u : String) (now : Nat),
        s.globalLimiter = s2.globalLimiter → s.userLimiter = s2.userLimiter →
        (canStartJob s u now).1 = (canStartJob s2 u now).1)
    ∧ (∀ (s : RateLimiterState) (j : String),
        (finishJob s j).globalLimiter = s.globalLimiter
        ∧ (finishJob s j).userLimiter = s.userLimiter) :=
  ⟨cooldown_denies_within_window, cooldown_allows_after_window,
   cooldown_keyed_per_requester, admission_ignores_job_outcomes,
   fun _ _ => ⟨rfl, rfl⟩⟩

/-- Witness for C7 at the default configuration: "alice" admitted at
t = 0 is denied at t = 30000 ms (inside the 60 s cooldown) and admitted
at t = 61000 ms (after it); the admission leaves "bob"'s cooldown record
untouched; and admitting then finishing a job does not change the next
decision. -/
theorem c7_per_requester_cooldown_witness :
    ((canStartJob (canStartJob freshSchedulerState "alice" 0).2 "alice" 30000).1.allowed = false)
    ∧ ((canStartJob (canStartJob freshSchedulerState "alice" 0).2 "alice" 61000).1.allowed = true)
    ∧ (recFind ((canStartJob freshSchedulerState "alice" 0).2).userLimiter.records "user_bob" =
        recFind freshSchedulerState.userLimiter.records "user_bob")
    ∧ ((canStartJob (finishJob (startJob freshSchedulerState "j1") "j1") "alice" 0).1 =
        (canStartJob freshSchedulerState "alice" 0).1) :=
  ⟨c7_per_requester_cooldown.1 freshSchedulerState "alice" 0 30000 rfl
      (fun _ hp => absurd hp (List.not_mem_nil _)) (by decide) (by decide),
   c7_per_requester_cooldown.2.1 freshSchedulerState "alice" 0 61000 (by decide)
      (fun _ hp => absurd hp (List.not_mem_nil _))
      (fun _ hp => absurd hp (List.not_mem_nil _)) (by decide) (by decide) (by decide),
   c7_per_requester_cooldown.2.2.1 freshSchedulerState "alice" "bob" 0 (by decide),
   c7_per_requester_cooldown.2.2.2.1 _ _ "alice" 0 rfl rfl⟩

/-- C10: the `hasPermission` variant at `src/unnamed/part_002` returns
`true` on every input, so its result is independent of the user, the
channel and the configured allow-lists; in particular a configuration
whose allow-list the main variant enforces (rejecting user "U2") is
bypassed by it. -/
theorem c10_permission_check_bypassed :
    (∀ (cfg : SecurityConfig) (u c : String), hasPermissionTestingBypass cfg u c = true)
    ∧ (∀ (cfg cfg2 : SecurityConfig) (u u2 c c2 : String),
        hasPermissionTestingBypass cfg u c = hasPermissionTestingBypass cfg2 u2 c2)
    ∧ hasPermission { allowedUsers := some ["U1"], allowedChannels := none } "U2" "C1" = false
    ∧ hasPermissionTestingBypass
        { allowedUsers := some ["U1"], allowedChannels := none } "U2" "C1" = true :=
  ⟨fun _ _ _ => rfl, fun _ _ _ _ _ _ => rfl, by decide, rfl⟩

/-!
## Page-number parsing
Embedding of `parsePageNumbers` from `src/app.js`.  The function splits
the request on commas, trims each part, expands `a-b` ranges (both ends
parsed with JavaScript `parseInt` after an inner trim, rejecting
`NaN` bounds and `start > end`), parses plain parts with `parseInt`
(rejecting `NaN`), accumulates the numbers in an insertion-ordered
`Set`, and finally returns `Array.from(set).sort((a, b) => a - b)`.
Strings are handled as character lists; `parseIntJs` models the
`parseInt` builtin (leading whitespace, optional sign, `0x`/`0X` hex
prefix, longest digit prefix, `NaN` as `none`); the `Set` is a
duplicate-free insertion-ordered list; the numeric `sort` is modelled
by insertion sort, which agrees with every comparison sort on a
duplicate-free list.  The thrown `Invalid range:`/`Invalid page number:`
errors are collapsed to `none`.
-/

/-- Split a character list at every occurrence of a separator, as
JavaScript `String.split` does with a one-character separator. -/
def splitOnChar (sep : Char) : List Char → List (List Char)
  | [] => [[]]
  | c :: cs =>
    if c = sep then [] :: splitOnChar sep cs
    else
      match splitOnChar sep cs with
      | [] => [[c]]
      | p :: ps => (c :: p) :: ps

/-- JavaScript `String.trim` on a character list. -/
def trimChars (cs : List Char) : List Char :=
  ((cs.dropWhile Char.isWhitespace).reverse.dropWhile Char.isWhitespace).reverse

/-- Decimal digit value. -/
def decDigit (c : Char) : Option Nat :=
  if '0' ≤ c ∧ c ≤ '9' then some (c.toNat - '0'.toNat) else none

/-- Hexadecimal digit value. -/
def hexDigit (c : Char) : Option Nat :=
  if '0' ≤ c ∧ c ≤ '9' then some (c.toNat - '0'.toNat)
  else if 'a' ≤ c ∧ c ≤ 'f' then some (c.toNat - 'a'.toNat + 10)
  else if 'A' ≤ c ∧ c ≤ 'F' then some (c.toNat - 'A'.toNat + 10)
  else none

/-- Accumulate the longest digit prefix in the given base. -/
def parseDigits (digit : Char → Option Nat) (base : Nat) : List Char → Nat → Nat
  | [], acc => acc
  | c :: cs, acc =>
    match digit c with
    | some d => parseDigits digit base cs (acc * base + d)
    | none => acc

/-- Whether the list starts with a digit (otherwise `parseInt` is `NaN`). -/
def leadDigit (digit : Char → Option Nat) : List Char → Bool
  | [] => false
  | c :: _ => (digit c).isSome

/-- JavaScript `parseInt(s)` (radix auto-detected): skip leading
whitespace, optional sign, `0x`/`0X` hex prefix, then the longest run of
digits; `none` models `NaN`. -/
def parseIntJs (cs0 : List Char) : Option Int :=
  match (match cs0.dropWhile Char.isWhitespace with
         | '-' :: rest => ((-1 : Int), rest)
         | '+' :: rest => ((1 : Int), rest)
         | cs => ((1 : Int), cs)) with
  | (sign, '0' :: 'x' :: rest) =>
      if leadDigit hexDigit rest then some (sign * (parseDigits hexDigit 16 rest 0 : Int))
      else none
  | (sign, '0' :: 'X' :: rest) =>
      if leadDigit hexDigit rest then some (sign * (parseDigits hexDigit 16 rest 0 : Int))
      else none
  | (sign, rest) =>
      if leadDigit decDigit rest then some (sign * (parseDigits decDigit 10 rest 0 : Int))
      else none

/-- The ascending run `start, start + 1, …, end` added by the range loop
`for (let i = start; i <= end; i++)`. -/
def rangeAsc (a b : Int) : List Int :=
  (List.range ((b - a).toNat + 1)).map (fun i => a + (i : Int))

/-- The numbers one trimmed part contributes: a `a-b` range when the part
contains a dash (both bounds `parseInt`-parsed after an inner trim,
rejecting `NaN` and `start > end`), otherwise a single `parseInt`-parsed
number (rejecting `NaN`).  `none` models the thrown error. -/
def partPages (trimmed : List Char) : Option (List Int) :=
  if trimmed.contains '-' then
    match (splitOnChar '-' trimmed).map (fun n => parseIntJs (trimChars n)) with
    | st :: en :: _ =>
      match st, en with
      | some a, some b => if a > b then none else some (rangeAsc a b)
      | _, _ => none
    | _ => none
  else
    match parseIntJs trimmed with
    | some a => some [a]
    | none => none

/-- `Set.add`: append the number unless it is already present. -/
def addPage (acc : List Int) (n : Int) : List Int :=
  if n ∈ acc then acc else acc ++ [n]

/-- Add a run of numbers to the set in order. -/
def addPages (acc : List Int) (ns : List Int) : List Int :=
  ns.foldl addPage acc

/-- Process the comma-separated parts left to right, trimming each and
accumulating its pages; `none` as soon as one part is invalid. -/
def collectParts : List (List Char) → List Int → Option (List Int)
  | [], acc => some acc
  | p :: ps, acc =>
    match partPages (trimChars p) with
    | none => none
    | some ns => collectParts ps (addPages acc ns)

/-- The final numeric ascending sort `…sort((a, b) => a - b)`, modelled
by insertion sort. -/
def sortAsc (l : List Int) : List Int :=
  List.insertionSort (· ≤ ·) l

/-- `parsePageNumbers(pageParam)` from `src/app.js`. -/
def parsePageNumbers (pageParam : String) : Option (List Int) :=
  match collectParts (splitOnChar ',' pageParam.toList) [] with
  | none => none
  | some acc => some (sortAsc acc)

theorem addPage_mem (acc : List Int) (n x : Int) :
    x ∈ addPage acc n ↔ x ∈ acc ∨ x = n := by
  unfold addPage
  split_ifs with h
  · exact ⟨Or.inl, fun hx => hx.elim id (fun he => he ▸ h)⟩
  · simp

theorem addPage_nodup (acc : List Int) (n : Int) (h : acc.Nodup) : (addPage acc n).Nodup := by
  unfold addPage
  split_ifs with hm
  · exact h
  · simpa [List.nodup_append, hm] using h

theorem addPages_mem (ns : List Int) (acc : List Int) (x : Int) :
    x ∈ addPages acc ns ↔ x ∈ acc ∨ x ∈ ns := by
  induction ns generalizing acc with
  | nil => simp [addPages]
  | cons n ns ih =>
    show x ∈ addPages (addPage acc n) ns ↔ _
    rw [ih, addPage_mem]
    simp only [List.mem_cons, or_assoc]

theorem addPages_nodup (ns : List Int) (acc : List Int) (h : acc.Nodup) :
    (addPages acc ns).Nodup := by
  induction ns generalizing acc with
  | nil => exact h
  | cons n ns ih => exact ih _ (addPage_nodup _ _ h)

theorem collectParts_none_iff (ps : List (List Char)) (acc : List Int) :
    collectParts ps acc = none ↔ ∃ p ∈ ps, partPages (trimChars p) = none := by
  induction ps generalizing acc with
  | nil => simp [collectParts]
  | cons p ps ih =>
    unfold collectParts
    cases hp : partPages (trimChars p) with
    | none => simp [hp]
    | some ns => simp [hp, ih]

theorem collectParts_mem (ps : List (List Char)) (acc out : List Int)
    (h : collectParts ps acc = some out) (x : Int) :
    x ∈ out ↔ x ∈ acc ∨ ∃ p ∈ ps, ∃ ns, partPages (trimChars p) = some ns ∧ x ∈ ns := by
  induction ps generalizing acc with
  | nil =>
    simp only [collectParts, Option.some_inj] at h
    subst h
    simp
  | cons p ps ih =>
    unfold collectParts at h
    cases hp : partPages (trimChars p) with
    | none => rw [hp] at h; exact absurd h (by simp)
    | some ns =>
      rw [hp] at h
      rw [ih _ h, addPages_mem]
      constructor
      · rintro (⟨hx | hx⟩ | ⟨q, hq, ms, hms, hx⟩)
        · exact Or.inl hx
        · exact Or.inr ⟨p, List.mem_cons_self _ _, ns, hp, hx⟩
        · exact Or.inr ⟨q, List.mem_cons_of_mem _ hq, ms, hms, hx⟩
      · rintro (hx | ⟨q, hq, ms, hms, hx⟩)
        · exact Or.inl (Or.inl hx)
        · rcases List.mem_cons.mp hq with rfl | hq2
          · rw [hp] at hms
            cases hms
            exact Or.inl (Or.inr hx)
          · exact Or.inr ⟨q, hq2, ms, hms, hx⟩

theorem collectParts_nodup (ps : List (List Char)) (acc out : List Int)
    (h : collectParts ps acc = some out) (hacc : acc.Nodup) : out.Nodup := by
  induction ps generalizing acc with
  | nil =>
    simp only [collectParts, Option.some_inj] at h
    subst h
    exact hacc
  | cons p ps ih =>
    unfold collectParts at h
    cases hp : partPages (trimChars p) with
    | none => rw [hp] at h; exact absurd h (by simp)
    | some ns =>
      rw [hp] at h
      exact ih _ h (addPages_nodup _ _ hacc)

theorem sortAsc_sorted (l : List Int) : (sortAsc l).Sorted (· ≤ ·) :=
  List.sorted_insertionSort _ l

theorem sortAsc_perm (l : List Int) : List.Perm (sortAsc l) l :=
  List.perm_insertionSort _ l

theorem sorted_lt_of_le_nodup (l : List Int) (h1 : l.Sorted (· ≤ ·)) (h2 : l.Nodup) :
    l.Sorted (· < ·) :=
  (List.Pairwise.and h1 h2).imp (fun hab => lt_of_le_of_ne hab.1 hab.2)

theorem parsePageNumbers_strict_sorted (s : String) (l : List Int)
    (h : parsePageNumbers s = some l) : l.Sorted (· < ·) := by
  unfold parsePageNumbers at h
  cases hc : collectParts (splitOnChar ',' s.toList) [] with
  | none => rw [hc] at h; exact absurd h (by simp)
  | some acc =>
    rw [hc] at h
    simp only [Option.some_inj] at h
    subst h
    exact sorted_lt_of_le_nodup _ (sortAsc_sorted acc)
      ((sortAsc_perm acc).nodup_iff.mpr (collectParts_nodup _ _ _ hc List.nodup_nil))

theorem parsePageNumbers_parts_perm (s1 s2 : String)
    (hperm : List.Perm (splitOnChar ',' s1.toList) (splitOnChar ',' s2.toList)) :
    parsePageNumbers s1 = parsePageNumbers s2 := by
  unfold parsePageNumbers
  cases hc1 : collectParts (splitOnChar ',' s1.toList) [] with
  | none =>
    have : collectParts (splitOnChar ',' s2.toList) [] = none := by
      rw [collectParts_none_iff] at hc1 ⊢
      obtain ⟨p, hp, hbad⟩ := hc1
      exact ⟨p, hperm.mem_iff.mp hp, hbad⟩
    rw [this]
  | some acc1 =>
    cases hc2 : collectParts (splitOnChar ',' s2.toList) [] with
    | none =>
      exfalso
      rw [collectParts_none_iff] at hc2
      obtain ⟨p, hp, hbad⟩ := hc2
      have : collectParts (splitOnChar ',' s1.toList) [] = none :=
        (collectParts_none_iff _ _).mpr ⟨p, hperm.mem_iff.mpr hp, hbad⟩
      rw [this] at hc1
      cases hc1
    | some acc2 =>
      have hn1 : acc1.Nodup := collectParts_nodup _ _ _ hc1 List.nodup_nil
      have hn2 : acc2.Nodup := collectParts_nodup _ _ _ hc2 List.nodup_nil
      have hmem : ∀ x, x ∈ acc1 ↔ x ∈ acc2 := by
        intro x
        rw [collectParts_mem _ _ _ hc1 x, collectParts_mem _ _ _ hc2 x]
        simp only [List.not_mem_nil, false_or]
        constructor
        · rintro ⟨p, hp, ns, hns, hx⟩
          exact ⟨p, hperm.mem_iff.mp hp, ns, hns, hx⟩
        · rintro ⟨p, hp, ns, hns, hx⟩
          exact ⟨p, hperm.mem_iff.mpr hp, ns, hns, hx⟩
      have hacl : List.Perm (sortAsc acc1) (sortAsc acc2) := by
        rw [List.perm_ext_iff_of_nodup ((sortAsc_perm acc1).nodup_iff.mpr hn1)
          ((sortAsc_perm acc2).nodup_iff.mpr hn2)]
        intro x
        rw [(sortAsc_perm acc1).mem_iff, (sortAsc_perm acc2).mem_iff]
        exact hmem x
      have heq := List.eq_of_perm_of_sorted hacl (sortAsc_sorted acc1) (sortAsc_sorted acc2)
      show some (sortAsc acc1) = some (sortAsc acc2)
      rw [heq]

/-- C5: `parsePageNumbers` returns the requested page set as a strictly
ascending duplicate-free list.  `"1,3-5,7"` parses to `[1, 3, 4, 5, 7]`;
the reordered, overlapping request `"5,3-5,1"` normalizes to
`[1, 3, 4, 5]`; every successful parse is strictly sorted (hence
duplicate-free); and permuting the comma-separated parts of a request
never changes the result. -/
theorem c5_parse_page_numbers_normalizes :
    parsePageNumbers "1,3-5,7" = some [1, 3, 4, 5, 7]
    ∧ parsePageNumbers "5,3-5,1" = some [1, 3, 4, 5]
    ∧ (∀ (s : String) (l : List Int), parsePageNumbers s = some l → l.Sorted (· < ·))
    ∧ (∀ s1 s2 : String, List.Perm (splitOnChar ',' s1.toList) (splitOnChar ',' s2.toList) →
        parsePageNumbers s1 = parsePageNumbers s2) :=
  ⟨by decide, by decide, parsePageNumbers_strict_sorted, parsePageNumbers_parts_perm⟩

/-- Witness for C5: the strict-sortedness and part-permutation parts
applied to the concrete requests `"1,3-5,7"` and `"3-5,7,1"`. -/
theorem c5_parse_page_numbers_normalizes_witness :
    ([1, 3, 4, 5, 7] : List Int).Sorted (· < ·)
    ∧ parsePageNumbers "1,3-5,7" = parsePageNumbers "3-5,7,1" :=
  ⟨c5_parse_page_numbers_normalizes.2.2.1 "1,3-5,7" [1, 3, 4, 5, 7] (by decide),
   c5_parse_page_numbers_normalizes.2.2.2 "1,3-5,7" "3-5,7,1" (by decide)⟩

/-!
## Page counting
Embedding of `getPageCount` and `countPagesByNavigation` from
`src/services/docsendService.js`.  The live page is abstracted as an
oracle: `counterAt i` is the page count parsed from the `i`-th
page-counter selector (`none` when the selector is absent, throws, or
its text has no digits — the `count && count > 0` truthiness checks fold
into the parse); `nextAtCheck i` is the "next" control observed at the
top of loop iteration `i` (`none` = not found) with its visibility and
the truthiness of its `disabled` attribute; `nextAfterNav i` tells
whether a visible "next" control is still present after the click of
iteration `i`.  The return-to-first-page replay at the end of
`countPagesByNavigation` only clicks "previous" and does not affect the
returned count, so it has no observable effect here. -/
structure NavButton where
  visible : Bool
  disabled : Bool
  deriving Repr, DecidableEq

/-- Oracle for the viewer page used by the page-count routines. -/
structure NavEnv where
  counterAt : Nat → Option Nat
  nextAtCheck : Nat → Option NavButton
  nextAfterNav : Nat → Bool

/-- The `for (let i = 0; i < maxAttempts; i++)` navigation-count loop.
`fuel` is the number of remaining iterations (initially `maxAttempts`),
`i` the iteration index, `pc` the running `pageCount` (initially 1).
Breaks mirror the source: missing/invisible/disabled button; button gone
after the click (returning `pageCount + 1`); `pageCount > maxAttempts`;
and the hard `pageCount > 25` stop. -/
def countLoop (env : NavEnv) (maxAttempts : Nat) : Nat → Nat → Nat → Nat
  | 0, _, pc => pc
  | fuel + 1, i, pc =>
    match env.nextAtCheck i with
    | none => pc
    | some b =>
      if !b.visible || b.disabled then pc
      else if !(env.nextAfterNav i) then pc + 1
      else if pc + 1 > maxAttempts then pc + 1
      else if pc + 1 > 25 then pc + 1
      else countLoop env maxAttempts fuel (i + 1) (pc + 1)

/-- `countPagesByNavigation()` with `maxAttempts = config.rateLimiting.maxPages`. -/
def countPagesByNavigation (env : NavEnv) (maxAttempts : Nat) : Nat :=
  countLoop env maxAttempts maxAttempts 0 1

/-- The page-counter selector scan at the top of `getPageCount`: the
first selector whose parsed count satisfies `0 < count ≤ maxPages` wins. -/
def counterScan (env : NavEnv) (maxPages : Nat) : List Nat → Option Nat
  | [] => none
  | i :: is =>
    match env.counterAt i with
    | some c => if 0 < c ∧ c ≤ maxPages then some c else counterScan env maxPages is
    | none => counterScan env maxPages is

/-- `getPageCount()`: try the five page-counter selectors, else fall back
to counting by navigation, clamping a fallback value above 50 to 50. -/
def getPageCount (env : NavEnv) (maxPages : Nat) : Nat :=
  match counterScan env maxPages [0, 1, 2, 3, 4] with
  | some c => c
  | none =>
    if countPagesByNavigation env maxPages > 50 then 50
    else countPagesByNavigation env maxPages

/-- A document whose "next" control never goes away: every probe finds a
visible, enabled button, also after each click, and no page counter is
shown. -/
def runawayEnv : NavEnv :=
  { counterAt := fun _ => none
  , nextAtCheck := fun _ => some { visible := true, disabled := false }
  , nextAfterNav := fun _ => true }

theorem countLoop_le (env : NavEnv) (maxAttempts : Nat) :
    ∀ fuel i pc, pc ≤ 25 → pc ≤ maxAttempts →
      countLoop env maxAttempts fuel i pc ≤ min (maxAttempts + 1) 26 := by
  intro fuel
  induction fuel with
  | zero =>
    intro i pc h1 h2
    show pc ≤ min (maxAttempts + 1) 26
    rw [Nat.le_min]
    omega
  | succ fuel ih =>
    intro i pc h1 h2
    unfold countLoop
    cases env.nextAtCheck i with
    | none =>
      show pc ≤ min (maxAttempts + 1) 26
      rw [Nat.le_min]
      omega
    | some b =>
      show (if !b.visible || b.disabled then pc
            else if !(env.nextAfterNav i) then pc + 1
            else if pc + 1 > maxAttempts then pc + 1
            else if pc + 1 > 25 then pc + 1
            else countLoop env maxAttempts fuel (i + 1) (pc + 1)) ≤ min (maxAttempts + 1) 26
      split_ifs with hv hn hm hs
      · rw [Nat.le_min]; omega
      · rw [Nat.le_min]; omega
      · rw [Nat.le_min]; omega
      · rw [Nat.le_min]; omega
      · exact ih (i + 1) (pc + 1) (by omega) (by omega)

theorem countPagesByNavigation_le (env : NavEnv) (maxAttempts : Nat) :
    countPagesByNavigation env maxAttempts ≤ min (maxAttempts + 1) 26 := by
  unfold countPagesByNavigation
  cases maxAttempts with
  | zero =>
    show (1 : Nat) ≤ min (0 + 1) 26
    decide
  | succ n => exact countLoop_le env (n + 1) (n + 1) 0 1 (by omega) (by omega)

theorem counterScan_some (env : NavEnv) (maxPages : Nat) (c : Nat) :
    ∀ idxs, counterScan env maxPages idxs = some c → 0 < c ∧ c ≤ maxPages := by
  intro idxs
  induction idxs with
  | nil => intro h; exact absurd h (by simp [counterScan])
  | cons i is ih =>
    intro h
    unfold counterScan at h
    cases henv : env.counterAt i with
    | none =>
      rw [henv] at h
      exact ih h
    | some c2 =>
      rw [henv] at h
      simp only at h
      split_ifs at h with hb
      · cases h; exact hb
      · exact ih h

/-- C4 counterexample: with the configured ceiling set to 1 page and a
document whose "next" control never disappears, the navigation fallback
returns 2, exceeding the configured maximum page ceiling. -/
theorem c4_fallback_exceeds_configured_ceiling :
    counterScan runawayEnv 1 [0, 1, 2, 3, 4] = none
    ∧ getPageCount runawayEnv 1 = 2
    ∧ ¬ (getPageCount runawayEnv 1 ≤ 1) :=
  ⟨by decide, by decide, by decide⟩

/-- C4 amended: when no on-screen page counter is found, the value
`getPageCount` returns through `countPagesByNavigation` never exceeds
`min (maxPages + 1) 26` — so it can exceed the configured ceiling by
exactly one, while the hard-coded stops (the in-loop 25-page stop and
the 50-clamp) bound it by 26 and hence by 50 even when the configured
ceiling is larger.  When a counter is found, the returned value does
respect the configured ceiling. -/
theorem c4_fallback_bounded_by_hard_ceilings :
    (∀ (env : NavEnv) (maxPages : Nat),
        counterScan env maxPages [0, 1, 2, 3, 4] = none →
        getPageCount env maxPages ≤ min (maxPages + 1) 26
        ∧ getPageCount env maxPages ≤ 50)
    ∧ (∀ (env : NavEnv) (maxPages c : Nat),
        counterScan env maxPages [0, 1, 2, 3, 4] = some c →
        getPageCount env maxPages = c ∧ c ≤ maxPages) := by
  constructor
  · intro env maxPages h
    have hb := countPagesByNavigation_le env maxPages
    have hg : getPageCount env maxPages ≤ min (maxPages + 1) 26 := by
      unfold getPageCount
      rw [h]
      split_ifs with h50
      · rw [Nat.le_min] at hb ⊢
        omega
      · exact hb
    exact ⟨hg, le_trans hg (le_trans (Nat.min_le_right _ _) (by omega))⟩
  · intro env maxPages c h
    refine ⟨?_, (counterScan_some env maxPages c _ h).2⟩
    unfold getPageCount
    rw [h]

/-- Witness for C4 (amended): the bound applied to the runaway document
with the default 300-page ceiling (fallback value 26 ≤ min 301 26), and
the counter path applied to a 12-page counter. -/
theorem c4_fallback_bounded_by_hard_ceilings_witness :
    (getPageCount runawayEnv 300 ≤ min 301 26 ∧ getPageCount runawayEnv 300 ≤ 50)
    ∧ (getPageCount
        { runawayEnv with counterAt := fun _ => some 12 } 300 = 12 ∧ 12 ≤ 300) :=
  ⟨c4_fallback_bounded_by_hard_ceilings.1 runawayEnv 300 (by decide),
   c4_fallback_bounded_by_hard_ceilings.2
     { runawayEnv with counterAt := fun _ => some 12 } 300 12 (by decide)⟩

/-!
## Image-to-document assembly
Embedding of `createPDF`/`addPageToPDF` from `src/services/pdfService.js`.
`createPDF` iterates over the screenshot list in order; for each entry it
runs the Sharp resize pipeline (`processImage`, abstracted as an
arbitrary function `process` on image data, since Sharp is an external
binary) and then `addPageToPDF`, which appends exactly one page holding
the processed image to the document, drawing a `Page n` label when
`config.pdf.showPageNumbers` is set.  Pages are only ever appended. -/
structure Screenshot (α : Type) where
  pageNumber : Nat
  data : α

/-- One page of the assembled document: the drawn image and the optional
page-number label. -/
structure PdfPage (β : Type) where
  image : β
  pageLabel : Option Nat
  deriving DecidableEq

/-- `addPageToPDF(pdfDoc, imageBuffer, pageNumber)`: append one page. -/
def addPageToPDF (showNumbers : Bool) (doc : List (PdfPage β)) (img : β) (pageNumber : Nat) :
    List (PdfPage β) :=
  doc ++ [{ image := img, pageLabel := if showNumbers then some pageNumber else none }]

/-- `createPDF(screenshots)`: process and append one page per screenshot,
in list order. -/
def createPDF (showNumbers : Bool) (process : α → β) (shots : List (Screenshot α)) :
    List (PdfPage β) :=
  shots.foldl (fun doc s => addPageToPDF showNumbers doc (process s.data) s.pageNumber) []

theorem createPDF_go (showNumbers : Bool) (process : α → β) :
    ∀ (shots : List (Screenshot α)) (acc : List (PdfPage β)),
      shots.foldl (fun doc s => addPageToPDF showNumbers doc (process s.data) s.pageNumber) acc
        = acc ++ shots.map (fun s =>
            { image := process s.data,
              pageLabel := if showNumbers then some s.pageNumber else none }) := by
  intro shots
  induction shots with
  | nil => simp
  | cons s shots ih =>
    intro acc
    simp only [List.foldl_cons, List.map_cons]
    rw [ih]
    simp [addPageToPDF]

/-- C8: the assembled document has exactly one page per input capture,
page count equal to the input length, images in exactly the input order,
and (when page-number labels are enabled) the labels list the input page
numbers in input order — no gaps, no duplicates beyond those of the
input itself. -/
theorem c8_assembly_preserves_count_and_order :
    ∀ (α β : Type) (showNumbers : Bool) (process : α → β) (shots : List (Screenshot α)),
      (createPDF showNumbers process shots).length = shots.length
      ∧ (createPDF showNumbers process shots).map (fun p => p.image)
          = shots.map (fun s => process s.data)
      ∧ (createPDF true process shots).map (fun p => p.pageLabel)
          = shots.map (fun s => some s.pageNumber) := by
  intro α β showNumbers process shots
  refine ⟨?_, ?_, ?_⟩ <;>
    simp [createPDF, createPDF_go, Function.comp]

/-!
## Job orchestration
Embedding of `processJob`/`handleJobError`/`cleanupJob`/`cancelJob` from
`src/services/jobProcessor.js` together with `formatErrorMessage` from
`src/services/slackService.js`.  A job run is abstracted by its outcome:
either every phase succeeded, or the first failing phase threw an error
with some message.  The `try` block runs URL validation, browser
initialization (which may leave the browser and context partially
opened), navigation/authentication, page capture, PDF assembly and
delivery; every thrown error lands in the single `catch`, which calls
`handleJobError` (one `sendErrorMessage` to Slack whose text appends the
bucket chosen by `formatErrorMessage`'s first-matching-substring rules)
and then marks the job failed; the `finally` block always runs
`cleanupJob`, which closes page, then context, then browser — and calls
nothing on the rate limiter, so the Scheduler admission taken by
`startJob` in `src/app.js` is never released (`finishJob` has no call
site in the repository). -/
inductive ErrorBucket
  | invalidUrl
  | restrictedEmail
  | otpCode
  | blocked
  | expiredOrMissing
  | rateLimited
  | generic
  deriving Repr, DecidableEq

/-- Whether `pat` is a leading run of `s`. -/
def chStarts : List Char → List Char → Bool
  | _, [] => true
  | [], _ :: _ => false
  | a :: as, b :: bs => a == b && chStarts as bs

/-- Whether `pat` occurs anywhere in `s` (JavaScript `String.includes`). -/
def chHas : List Char → List Char → Bool
  | [], pat => pat.isEmpty
  | c :: cs, pat => chStarts (c :: cs) pat || chHas cs pat

/-- `error.message.includes(sub)`. -/
def strHas (s sub : String) : Bool :=
  chHas s.toList sub.toList

/-- The specific-message bucket chosen by `formatErrorMessage` by
matching substrings of `error.message`, in source order, with the
"unexpected error" fallback. -/
def classifyError (msg : String) : ErrorBucket :=
  if strHas msg "invalid URL" then ErrorBucket.invalidUrl
  else if strHas msg "email" then ErrorBucket.restrictedEmail
  else if strHas msg "OTP" || strHas msg "verification" then ErrorBucket.otpCode
  else if strHas msg "blocked" || strHas msg "automated" then ErrorBucket.blocked
  else if strHas msg "expired" || strHas msg "404" then ErrorBucket.expiredOrMissing
  else if strHas msg "rate limit" || strHas msg "throttle" then ErrorBucket.rateLimited
  else ErrorBucket.generic

/-- Which of the session resources are open when cleanup runs. -/
structure SessionFlags where
  pageOpen : Bool
  contextOpen : Bool
  browserOpen : Bool
  deriving Repr, DecidableEq

/-- Observable events of one job run. -/
inductive JobEvent
  | errorMessageSent (bucket : ErrorBucket)
  | statusFailed
  | statusCompleted
  | statusCancelled
  | closePage
  | closeContext
  | closeBrowser
  | schedulerRelease
  deriving Repr, DecidableEq

/-- How one `processJob` run ended: success, or the first phase that
threw, with its error message.  `failBrowserInit` records how far
`initializeBrowser` got before throwing (browser launched? context
created?); from navigation onwards all three resources are open. -/
inductive JobOutcome
  | success
  | failValidate (msg : String)
  | failBrowserInit (msg : String) (browserOpen contextOpen : Bool)
  | failNavigate (msg : String)
  | failCapture (msg : String)
  | failAssemble (msg : String)
  | failDeliver (msg : String)
  deriving Repr, DecidableEq

/-- The error message the catch block receives, if any. -/
def errorOf : JobOutcome → Option String
  | JobOutcome.success => none
  | JobOutcome.failValidate msg => some msg
  | JobOutcome.failBrowserInit msg _ _ => some msg
  | JobOutcome.failNavigate msg => some msg
  | JobOutcome.failCapture msg => some msg
  | JobOutcome.failAssemble msg => some msg
  | JobOutcome.failDeliver msg => some msg

/-- The session resources open when the `finally` block runs. -/
def sessionAt : JobOutcome → SessionFlags
  | JobOutcome.success => ⟨true, true, true⟩
  | JobOutcome.failValidate _ => ⟨false, false, false⟩
  | JobOutcome.failBrowserInit _ b c => ⟨false, c, b⟩
  | JobOutcome.failNavigate _ => ⟨true, true, true⟩
  | JobOutcome.failCapture _ => ⟨true, true, true⟩
  | JobOutcome.failAssemble _ => ⟨true, true, true⟩
  | JobOutcome.failDeliver _ => ⟨true, true, true⟩

/-- `docSendService.cleanup()`: close the page, then the context, then
the browser — each only if it is open.  Its own errors are caught and
logged, never rethrown. -/
def cleanupEvents (f : SessionFlags) : List JobEvent :=
  (if f.pageOpen then [JobEvent.closePage] else [])
    ++ (if f.contextOpen then [JobEvent.closeContext] else [])
    ++ (if f.browserOpen then [JobEvent.closeBrowser] else [])

/-- The event trace of one `processJob` run: the catch block sends one
classified error message and marks the job failed (or the job completes),
then the `finally` block cleans the session up.  No event ever releases
the Scheduler admission. -/
def processJobEvents (o : JobOutcome) : List JobEvent :=
  (match errorOf o with
   | none => [JobEvent.statusCompleted]
   | some msg => [JobEvent.errorMessageSent (classifyError msg), JobEvent.statusFailed])
    ++ cleanupEvents (sessionAt o)

/-- The event trace of `cancelJob`: when the job is in status
`processing`, clean the session up and mark it cancelled; otherwise do
nothing.  It never releases the Scheduler admission either. -/
def cancelJobEvents (processing : Bool) (f : SessionFlags) : List JobEvent :=
  if processing then cleanupEvents f ++ [JobEvent.statusCancelled] else []

/-- Number of error messages surfaced to the delivery collaborator. -/
def countErrorEvents (evs : List JobEvent) : Nat :=
  (evs.filter (fun e => match e with
    | JobEvent.errorMessageSent _ => true
    | _ => false)).length

/-- C1: on every exit path the `finally` cleanup closes whatever part of
the capture session is open, top-down (page, context, browser, each at
most once — exactly once each on the success path and on every
post-initialization failure path), but NO exit path of `processJob` or
`cancelJob` ever releases the Scheduler admission: `finishJob` has no
call site, so the release count is 0 instead of the claimed exactly 1. -/
theorem c1_session_closed_but_admission_never_released :
    (∀ o : JobOutcome, JobEvent.schedulerRelease ∉ processJobEvents o)
    ∧ (∀ (processing : Bool) (f : SessionFlags),
        JobEvent.schedulerRelease ∉ cancelJobEvents processing f)
    ∧ cleanupEvents ⟨true, true, true⟩ =
        [JobEvent.closePage, JobEvent.closeContext, JobEvent.closeBrowser]
    ∧ processJobEvents JobOutcome.success =
        [JobEvent.statusCompleted, JobEvent.closePage, JobEvent.closeContext,
         JobEvent.closeBrowser]
    ∧ (∀ msg, processJobEvents (JobOutcome.failCapture msg) =
        [JobEvent.errorMessageSent (classifyError msg), JobEvent.statusFailed,
         JobEvent.closePage, JobEvent.closeContext, JobEvent.closeBrowser]) := by
  refine ⟨?_, ?_, rfl, rfl, fun msg => rfl⟩
  · intro o
    cases o <;>
      · simp only [processJobEvents, cleanupEvents, sessionAt, errorOf]
        split_ifs <;> simp
  · intro processing f
    simp only [cancelJobEvents, cleanupEvents]
    split_ifs <;> simp

/-- C3 counterexample: a page-capture failure actually raised by the
code (`navigateToPage`'s "next button not found" error) matches none of
`formatErrorMessage`'s substrings and is surfaced with the generic
"unexpected error" fallback, not a taxonomy kind such as
`PageCaptureFailed`; and the OTP-retrieval failure message raised by
`handleAuthentication` contains "email", so it is routed to the
restricted-viewer-email bucket instead of an OTP kind. -/
theorem c3_counterexample_classification :
    classifyError "Cannot navigate to page 5 - next button not found or not visible"
        = ErrorBucket.generic
    ∧ classifyError "Failed to retrieve OTP from email" = ErrorBucket.restrictedEmail
    ∧ ErrorBucket.restrictedEmail ≠ ErrorBucket.otpCode
    ∧ countErrorEvents (processJobEvents (JobOutcome.failCapture
        "Cannot navigate to page 5 - next button not found or not visible")) = 1 := by
  refine ⟨by decide, by decide, by decide, by decide⟩

/-- C3 amended: every failure thrown in any phase of `processJob` is
caught at the orchestrator boundary and surfaced to the delivery
collaborator exactly once, with the explanation chosen by
`formatErrorMessage`'s first-matching-substring rule over the raw error
message; successful runs surface no error.  The classifier is not the
spec's typed taxonomy: a message matching none of the ten substrings —
including the code's own page-capture and assembly failures — falls to
the generic "unexpected error" bucket. -/
theorem c3_failure_surfaced_once_via_substring_buckets :
    (∀ (o : JobOutcome) (msg : String), errorOf o = some msg →
        countErrorEvents (processJobEvents o) = 1
        ∧ JobEvent.errorMessageSent (classifyError msg) ∈ processJobEvents o)
    ∧ countErrorEvents (processJobEvents JobOutcome.success) = 0
    ∧ (∀ msg, classifyError msg = ErrorBucket.generic ↔
        (strHas msg "invalid URL" = false ∧ strHas msg "email" = false
         ∧ strHas msg "OTP" = false ∧ strHas msg "verification" = false
         ∧ strHas msg "blocked" = false ∧ strHas msg "automated" = false
         ∧ strHas msg "expired" = false ∧ strHas msg "404" = false
         ∧ strHas msg "rate limit" = false ∧ strHas msg "throttle" = false)) := by
  refine ⟨?_, rfl, ?_⟩
  · intro o msg h
    cases o
    case success => exact Option.noConfusion h
    all_goals
      obtain rfl := Option.some_inj.mp h
      constructor
      · simp only [processJobEvents, cleanupEvents, sessionAt, errorOf, countErrorEvents]
        split_ifs <;> rfl
      · simp [processJobEvents, cleanupEvents, sessionAt, errorOf]
  · intro msg
    unfold classifyError
    split_ifs with h1 h2 h3 h4 h5 h6 <;>
      simp_all [Bool.or_eq_true, Bool.not_eq_true, not_or] <;>
      (intros; simp_all)

/-- Witness for C3 (amended): a delivery-phase failure with message
"upload crashed" is surfaced exactly once, carrying its classified
bucket. -/
theorem c3_failure_surfaced_once_via_substring_buckets_witness :
    countErrorEvents (processJobEvents (JobOutcome.failDeliver "upload crashed")) = 1
    ∧ JobEvent.errorMessageSent (classifyError "upload crashed")
        ∈ processJobEvents (JobOutcome.failDeliver "upload crashed") :=
  c3_failure_surfaced_once_via_substring_buckets.1
    (JobOutcome.failDeliver "upload crashed") "upload crashed" rfl

/-!
## Authentication gate handling
Embedding of `handleAuthentication` from `src/services/docsendService.js`.
One call is a single pass: first the email gate (a loop over six
selectors, each probe wrapped in its own try/catch; an element only
counts when its enclosing form carries the auth-form class), then — on
the possibly-changed page — the one-time-code gate (one combined
selector; the code is fetched from the mailbox collaborator, failure to
retrieve it throws "Failed to retrieve OTP from email"), then the
consent gate (one combined affirmative-label selector).  The live page
is abstracted as a type `P` with an observation/transition environment;
the fill/submit mechanics of each gate collapse into one page
transition guarded by a may-throw flag. -/
inductive ProbeStep
  | findThrows
  | notFound
  | found (inAuthForm : Option Bool)
  deriving Repr, DecidableEq

inductive Gate
  | email
  | otp
  | consent
  deriving Repr, DecidableEq

inductive AuthError
  | emailHandlingFailed
  | otpRetrievalFailed
  | consentHandlingFailed
  deriving Repr, DecidableEq

/-- Environment: what the six email probes observe on page `p`
(`found none` = the element was found but the in-auth-form check threw),
whether each gate's indicator matches, whether each gate's handling
pipeline completes without throwing, and the page transitions the
gates trigger. -/
structure AuthEnv (P : Type) where
  emailProbe : P → Nat → ProbeStep
  emailHandleOk : P → Bool
  afterEmailSubmit : P → P
  otpGate : P → Bool
  otpAvailable : Bool
  afterOtpSubmit : P → P
  consentGate : P → Bool
  consentHandleOk : P → Bool
  afterConsent : P → P

/-- The email-selector loop.  `cur` is the mutable `emailInput` variable
(the index of the selector that last produced an element): a throwing
`page.$` leaves it unchanged, a miss or a failed in-auth-form check
clears it, an element whose in-auth-form check throws leaves it set with
`foundSelector` still null, and an in-auth-form element breaks the loop.
Returns (`emailInput`, `foundSelector`). -/
def emailLoop (probe : Nat → ProbeStep) : List Nat → Option Nat → Option Nat × Option Nat
  | [], cur => (cur, none)
  | i :: is, cur =>
    match probe i with
    | ProbeStep.findThrows => emailLoop probe is cur
    | ProbeStep.notFound => emailLoop probe is none
    | ProbeStep.found none => emailLoop probe is (some i)
    | ProbeStep.found (some false) => emailLoop probe is none
    | ProbeStep.found (some true) => (some i, some i)

/-- The six email selectors, by index. -/
def emailSelIdx : List Nat := [0, 1, 2, 3, 4, 5]

/-- Email-gate phase: handle the gate when the loop left `emailInput`
set.  When `foundSelector` is still null (in-auth-form check threw on
the last hit) the subsequent `waitForSelector(null)` throws, and any
throw in the wait/fill/submit pipeline propagates out of
`handleAuthentication`. -/
def authEmailPhase (env : AuthEnv P) (p : P) : Except AuthError (P × List Gate) :=
  match emailLoop (env.emailProbe p) emailSelIdx none with
  | (none, _) => Except.ok (p, [])
  | (some _, none) => Except.error AuthError.emailHandlingFailed
  | (some _, some _) =>
    if env.emailHandleOk p then Except.ok (env.afterEmailSubmit p, [Gate.email])
    else Except.error AuthError.emailHandlingFailed

/-- One-time-code phase, on the page the email phase left. -/
def authOtpPhase (env : AuthEnv P) (pg : P × List Gate) : Except AuthError (P × List Gate) :=
  if env.otpGate pg.1 then
    if env.otpAvailable then Except.ok (env.afterOtpSubmit pg.1, pg.2 ++ [Gate.otp])
    else Except.error AuthError.otpRetrievalFailed
  else Except.ok pg

/-- Consent phase, on the page the previous phases left. -/
def authConsentPhase (env : AuthEnv P) (pg : P × List Gate) :
    Except AuthError (P × List Gate) :=
  if env.consentGate pg.1 then
    if env.consentHandleOk pg.1 then Except.ok (env.afterConsent pg.1, pg.2 ++ [Gate.consent])
    else Except.error AuthError.consentHandlingFailed
  else Except.ok pg

/-- `handleAuthentication()`: the three gate checks run in this fixed
order in one pass, each handling its gate whenever its indicator
matches; the second component lists the gates handled, in order. -/
def handleAuthentication (env : AuthEnv P) (p : P) : Except AuthError (P × List Gate) :=
  match authEmailPhase env p with
  | Except.error e => Except.error e
  | Except.ok pg1 =>
    match authOtpPhase env pg1 with
    | Except.error e => Except.error e
    | Except.ok pg2 => authConsentPhase env pg2

/-- A viewer page showing both the email form (first selector hits,
inside the auth form) and a one-time-code input that survives the email
submission; no consent prompt. -/
def emailAndOtpEnv : AuthEnv Unit :=
  { emailProbe := fun _ i => if i = 0 then ProbeStep.found (some true) else ProbeStep.notFound
  , emailHandleOk := fun _ => true
  , afterEmailSubmit := fun _ => ()
  , otpGate := fun _ => true
  , otpAvailable := true
  , afterOtpSubmit := fun _ => ()
  , consentGate := fun _ => false
  , consentHandleOk := fun _ => true
  , afterConsent := fun _ => () }

/-- C9 counterexample: on a page where both the email and the
one-time-code indicators match, a single `handleAuthentication` pass
handles BOTH gates — the first matching indicator does not determine
"the gate that is handled"; there is no one-gate-per-probe loop. -/
theorem c9_counterexample_first_match_only :
    handleAuthentication emailAndOtpEnv () = Except.ok ((), [Gate.email, Gate.otp])
    ∧ [Gate.email, Gate.otp] ≠ [Gate.email] := by
  refine ⟨rfl, by decide⟩

theorem emailLoop_foundSel (probe : Nat → ProbeStep) :
    ∀ (sels : List Nat) (cur : Option Nat),
      (emailLoop probe sels cur).2 =
        sels.find? (fun i => probe i == ProbeStep.found (some true)) := by
  intro sels
  induction sels with
  | nil => intro cur; rfl
  | cons i is ih =>
    intro cur
    unfold emailLoop
    cases hp : probe i with
    | findThrows => rw [List.find?_cons_of_neg _ (by simp [hp]), ih]
    | notFound => rw [List.find?_cons_of_neg _ (by simp [hp]), ih]
    | found b =>
      cases b with
      | none => rw [List.find?_cons_of_neg _ (by simp [hp]), ih]
      | some bv =>
        cases bv with
        | false => rw [List.find?_cons_of_neg _ (by simp [hp]), ih]
        | true => rw [List.find?_cons_of_pos _ (by simp [hp])]

theorem emailLoop_break (probe : Nat → ProbeStep) :
    ∀ (sels : List Nat) (cur : Option Nat) (j : Nat),
      sels.find? (fun i => probe i == ProbeStep.found (some true)) = some j →
      emailLoop probe sels cur = (some j, some j) := by
  intro sels
  induction sels with
  | nil => intro cur j h; exact Option.noConfusion h
  | cons i is ih =>
    intro cur j h
    unfold emailLoop
    cases hp : probe i with
    | findThrows =>
      rw [List.find?_cons_of_neg _ (by simp [hp])] at h
      exact ih cur j h
    | notFound =>
      rw [List.find?_cons_of_neg _ (by simp [hp])] at h
      exact ih none j h
    | found b =>
      cases b with
      | none =>
        rw [List.find?_cons_of_neg _ (by simp [hp])] at h
        exact ih (some i) j h
      | some bv =>
        cases bv with
        | false =>
          rw [List.find?_cons_of_neg _ (by simp [hp])] at h
          exact ih none j h
        | true =>
          rw [List.find?_cons_of_pos _ (by simp [hp])] at h
          cases h
          rfl

theorem handleAuthentication_gates_ordered (P : Type) (env : AuthEnv P) (p p2 : P)
    (gates : List Gate) (h : handleAuthentication env p = Except.ok (p2, gates)) :
    List.Sublist gates [Gate.email, Gate.otp, Gate.consent] := by
  unfold handleAuthentication at h
  cases he : authEmailPhase env p with
  | error e => rw [he] at h; exact Except.noConfusion h
  | ok pg1 =>
    rw [he] at h
    dsimp only at h
    have hg1 : pg1.2 = [] ∨ pg1.2 = [Gate.email] := by
      unfold authEmailPhase at he
      cases hl : emailLoop (env.emailProbe p) emailSelIdx none with
      | mk ei fs =>
        rw [hl] at he
        cases ei with
        | none =>
          dsimp only at he
          cases he
          exact Or.inl rfl
        | some j =>
          cases fs with
          | none =>
            dsimp only at he
            exact Except.noConfusion he
          | some k =>
            dsimp only at he
            split_ifs at he
            cases he
            exact Or.inr rfl
    cases ho : authOtpPhase env pg1 with
    | error e => rw [ho] at h; exact Except.noConfusion h
    | ok pg2 =>
      rw [ho] at h
      dsimp only at h
      have hg2 : pg2.2 = pg1.2 ∨ pg2.2 = pg1.2 ++ [Gate.otp] := by
        unfold authOtpPhase at ho
        split_ifs at ho
        · cases ho
          exact Or.inr rfl
        · cases ho
          exact Or.inl rfl
      have hg3 : gates = pg2.2 ∨ gates = pg2.2 ++ [Gate.consent] := by
        unfold authConsentPhase at h
        split_ifs at h
        · cases h
          exact Or.inr rfl
        · cases h
          exact Or.inl rfl
      rcases hg1 with h1 | h1 <;> rcases hg2 with h2 | h2 <;> rcases hg3 with h3 | h3 <;>
        · subst h3
          rw [h2, h1]
          decide

/-- C9 amended: `handleAuthentication` runs a single pass that checks
the gate indicators in the fixed priority order email → one-time-code →
consent and handles EVERY gate whose indicator matches (later checks
running on the page state earlier handling produced), so the handled
gates always form an in-order sublist of `[email, otp, consent]` — not
necessarily just the first match.  Email-gate detection uses the
prioritized six-selector list with per-selector exception handling: the
selector committed to is exactly the first whose element passes the
in-auth-form check, and earlier selectors that throw, miss, or fail
that check fall through without aborting the probe. -/
theorem c9_gates_priority_order_all_handled :
    (∀ (P : Type) (env : AuthEnv P) (p p2 : P) (gates : List Gate),
        handleAuthentication env p = Except.ok (p2, gates) →
        List.Sublist gates [Gate.email, Gate.otp, Gate.consent])
    ∧ (∀ (probe : Nat → ProbeStep) (sels : List Nat) (cur : Option Nat),
        (emailLoop probe sels cur).2 =
          sels.find? (fun i => probe i == ProbeStep.found (some true)))
    ∧ (∀ (probe : Nat → ProbeStep) (sels : List Nat) (cur : Option Nat) (j : Nat),
        sels.find? (fun i => probe i == ProbeStep.found (some true)) = some j →
        emailLoop probe sels cur = (some j, some j)) :=
  ⟨handleAuthentication_gates_ordered, emailLoop_foundSel, emailLoop_break⟩

/-- A viewer page showing only the consent prompt. -/
def consentOnlyEnv : AuthEnv Unit :=
  { emailProbe := fun _ _ => ProbeStep.notFound
  , emailHandleOk := fun _ => true
  , afterEmailSubmit := fun _ => ()
  , otpGate := fun _ => false
  , otpAvailable := true
  , afterOtpSubmit := fun _ => ()
  , consentGate := fun _ => true
  , consentHandleOk := fun _ => true
  , afterConsent := fun _ => () }

/-- Witness for C9 (amended): a consent-only page yields the handled
list `[consent]`, an in-order sublist; and a probe sequence whose first
two selectors throw and miss still commits to selector 2, the first
in-auth-form hit. -/
theorem c9_gates_priority_order_all_handled_witness :
    List.Sublist [Gate.consent] [Gate.email, Gate.otp, Gate.consent]
    ∧ emailLoop
        (fun i => if i = 0 then ProbeStep.findThrows
                  else if i = 1 then ProbeStep.notFound
                  else ProbeStep.found (some true))
        emailSelIdx none = (some 2, some 2) :=
  ⟨c9_gates_priority_order_all_handled.1 Unit consentOnlyEnv () () [Gate.consent] rfl,
   c9_gates_priority_order_all_handled.2.2
      (fun i => if i = 0 then ProbeStep.findThrows
                else if i = 1 then ProbeStep.notFound
                else ProbeStep.found (some true))
      emailSelIdx none 2 (by decide)⟩

/-!
## Locator validation
Embedding of the two locator validators.

`validateDocSendUrl` (`src/services/jobProcessor.js`) tests the anchored
regular expression
`^https?:\/\/docsend\.com\/view\/[a-zA-Z0-9]+(\/[a-zA-Z0-9\/]+)?(\?[^\s]*)?$`
and throws an invalid-locator error on mismatch.  The matcher below
transcribes the regex atom by atom (the character classes are disjoint
at every juncture, so greedy matching without backtracking decides the
regex language); the thrown message is abbreviated to its first
sentence.

`URLValidator.validateDocSendURL` (`src/unnamed/part_003`) trims the
input, parses it with the WHATWG `new URL` constructor, then checks
protocol http/https, hostname `docsend.com`, pathname
`^\/view\/[a-zA-Z0-9]+$`, and a document id of at least 3 characters
extracted as the third `/`-separated pathname part.  `urlParse` models
the constructor for absolute references in canonical
`scheme://host/path?query#fragment` form: scheme and host are
lowercased, the path stops at `?` or `#`, an empty path becomes `/`,
and a missing `//` yields an opaque parse with an empty hostname.
Outside the modelled scope (and irrelevant to every theorem below):
percent-decoding, userinfo/`@` and port/`:` splitting of the authority,
backslash-as-slash, dot-segment normalization, and the special-scheme
slash-elision quirks of the living standard.
-/

/-- `[a-zA-Z0-9]` (ASCII). -/
def idChar (c : Char) : Bool := c.isAlphanum

/-- `[a-zA-Z0-9\/]` (ASCII). -/
def subChar (c : Char) : Bool := c.isAlphanum || c == '/'

/-- `[^\s]`. -/
def queryChar (c : Char) : Bool := !c.isWhitespace

/-- `(\?[^\s]*)?$`. -/
def queryOpt (t : List Char) : Bool :=
  match t with
  | [] => true
  | c :: r => if c = '?' then r.all queryChar else false

/-- `(\/[a-zA-Z0-9\/]+)?(\?[^\s]*)?$`. -/
def tailMatch (t : List Char) : Bool :=
  match t with
  | [] => true
  | c :: r =>
    if c = '/' then !(r.takeWhile subChar).isEmpty && queryOpt (r.dropWhile subChar)
    else if c = '?' then r.all queryChar
    else false

/-- `[a-zA-Z0-9]+` followed by the optional subpath and query. -/
def idAndTail (r : List Char) : Bool :=
  !(r.takeWhile idChar).isEmpty && tailMatch (r.dropWhile idChar)

/-- The literal `://docsend.com/view/`. -/
def sepHostChars : List Char :=
  [':', '/', '/', 'd', 'o', 'c', 's', 'e', 'n', 'd', '.', 'c', 'o', 'm', '/', 'v', 'i', 'e', 'w', '/']

/-- Strip an exact literal prefix. -/
def dropExact : List Char → List Char → Option (List Char)
  | s, [] => some s
  | [], _ :: _ => none
  | a :: as, b :: bs => if a = b then dropExact as bs else none

/-- Match `://docsend.com/view/` then the id and tail. -/
def matchFromSep (cs : List Char) : Bool :=
  match dropExact cs sepHostChars with
  | some r => idAndTail r
  | none => false

/-- The full anchored regex of `validateDocSendUrl`: literal `http`,
optional `s`, then `://docsend.com/view/`, id, optional subpath,
optional query. -/
def docsendUrlAccepts (cs : List Char) : Bool :=
  match dropExact cs ['h', 't', 't', 'p'] with
  | none => false
  | some rest =>
    match rest with
    | [] => false
    | c :: r2 => if c = 's' then matchFromSep r2 else matchFromSep (c :: r2)

/-- `validateDocSendUrl(url)` from `src/services/jobProcessor.js`. -/
def validateDocSendUrl (url : String) : Except String Unit :=
  if docsendUrlAccepts url.toList then Except.ok ()
  else Except.error "Invalid DocSend URL. Please provide a valid URL in the format: https://docsend.com/view/..."

/-- The document-reference grammar matched by the subpath/query tail:
an optional slash-led non-empty alphanumeric-or-slash run, then an
optional query of non-whitespace characters. -/
def TailGrammar (t : List Char) : Prop :=
  ∃ sub query, t = sub ++ query
    ∧ (sub = [] ∨ ∃ p, sub = '/' :: p ∧ p ≠ [] ∧ p.all subChar = true)
    ∧ (query = [] ∨ ∃ q, query = '?' :: q ∧ q.all queryChar = true)

/-- The accepted document-reference grammar: `http` or `https`, the
literal `://docsend.com/view/`, a non-empty alphanumeric document id,
an optional subpath, and an optional query. -/
def DocsendUrlGrammar (cs : List Char) : Prop :=
  ∃ (secure : Bool) (id rest : List Char),
    cs = (if secure then ['h', 't', 't', 'p', 's'] else ['h', 't', 't', 'p'])
          ++ sepHostChars ++ id ++ rest
    ∧ id ≠ [] ∧ id.all idChar = true ∧ TailGrammar rest

/-- Scheme characters (`[a-zA-Z0-9+\-.]`). -/
def schemeChar (c : Char) : Bool := c.isAlphanum || c == '+' || c == '-' || c == '.'

/-- Authority characters: everything up to the first `/`, `?` or `#`. -/
def authChar (c : Char) : Bool := !(c == '/' || c == '?' || c == '#')

/-- Path characters: everything up to the first `?` or `#`. -/
def pathChar (c : Char) : Bool := !(c == '?' || c == '#')

/-- Lowercase a character run. -/
def toLowerList (cs : List Char) : List Char := cs.map Char.toLower

/-- The components of a parsed URL that the validator inspects. -/
structure ParsedUrl where
  protocol : List Char
  hostname : List Char
  pathname : List Char
  deriving Repr, DecidableEq

/-- Model of `new URL(s)` (scope in the section comment): a non-empty
letter-led scheme before `:`, then either `//`, a non-empty host and a
path, or an opaque remainder with empty hostname. -/
def urlParse (cs : List Char) : Option ParsedUrl :=
  if (cs.takeWhile schemeChar).isEmpty then none
  else if !(match cs.takeWhile schemeChar with
            | c :: _ => c.isAlpha
            | [] => false) then none
  else
    match cs.dropWhile schemeChar with
    | [] => none
    | c :: r2 =>
      if c = ':' then
        match r2 with
        | c1 :: c2 :: r3 =>
          if c1 = '/' ∧ c2 = '/' then
            if (r3.takeWhile authChar).isEmpty then none
            else some
              { protocol := toLowerList (cs.takeWhile schemeChar) ++ [':']
              , hostname := toLowerList (r3.takeWhile authChar)
              , pathname :=
                  if ((r3.dropWhile authChar).takeWhile pathChar).isEmpty then ['/']
                  else (r3.dropWhile authChar).takeWhile pathChar }
          else some
            { protocol := toLowerList (cs.takeWhile schemeChar) ++ [':']
            , hostname := [], pathname := r2.takeWhile pathChar }
        | _ => some
            { protocol := toLowerList (cs.takeWhile schemeChar) ++ [':']
            , hostname := [], pathname := r2.takeWhile pathChar }
      else none

/-- `^\/view\/[a-zA-Z0-9]+$` on the pathname. -/
def pathViewPattern (p : List Char) : Bool :=
  match dropExact p ['/', 'v', 'i', 'e', 'w', '/'] with
  | some idcs => !idcs.isEmpty && idcs.all idChar
  | none => false

/-- `pathname.split('/')[2]` (an out-of-range index models `undefined`
as the empty run, which the 3-character minimum then rejects exactly as
the `!documentId` truthiness check does). -/
def extractDocId (p : List Char) : List Char :=
  match splitOnChar '/' p with
  | _ :: _ :: d :: _ => d
  | _ => []

/-- The result of `URLValidator.validateDocSendURL`. -/
inductive UrlValidation
  | ok (documentId : List Char) (cleanUrl : List Char)
  | err (msg : String)
  deriving Repr, DecidableEq

/-- `URLValidator.validateDocSendURL(url)` from `src/unnamed/part_003`
(error messages abbreviated; the path-format message paraphrased without
braces). -/
def validateDocSendURL (url : String) : UrlValidation :=
  if (trimChars url.toList).isEmpty then UrlValidation.err "URL cannot be empty"
  else
    match urlParse (trimChars url.toList) with
    | none => UrlValidation.err "Invalid URL format"
    | some u =>
      if !(u.protocol == ['h', 't', 't', 'p', ':']
            || u.protocol == ['h', 't', 't', 'p', 's', ':']) then
        UrlValidation.err "URL must use HTTP or HTTPS protocol"
      else if !(u.hostname == ['d', 'o', 'c', 's', 'e', 'n', 'd', '.', 'c', 'o', 'm']) then
        UrlValidation.err "URL must be from docsend.com domain"
      else if !(pathViewPattern u.pathname) then
        UrlValidation.err "Invalid DocSend path format"
      else if (extractDocId u.pathname).length < 3 then
        UrlValidation.err "Document ID appears to be invalid"
      else
        UrlValidation.ok (extractDocId u.pathname)
          (u.protocol ++ ['/', '/'] ++ u.hostname ++ u.pathname)

theorem dropExact_eq_some_iff :
    ∀ (pat s r : List Char), dropExact s pat = some r ↔ s = pat ++ r := by
  intro pat
  induction pat with
  | nil =>
    intro s r
    simp [dropExact]
    try exact eq_comm
  | cons b bs ih =>
    intro s r
    cases s with
    | nil => simp [dropExact]
    | cons a as =>
      by_cases hab : a = b
      · subst hab
        simp [dropExact, ih]
      · simp [dropExact, hab]

theorem takeWhile_all (p : Char → Bool) (l : List Char) : (l.takeWhile p).all p = true := by
  rw [List.all_eq_true]
  intro x hx
  exact List.mem_takeWhile_imp hx

theorem splitRun (p : Char → Bool) (xs ys : List Char) (h1 : xs.all p = true)
    (h2 : ∀ c, ys.head? = some c → p c = false) :
    (xs ++ ys).takeWhile p = xs ∧ (xs ++ ys).dropWhile p = ys := by
  induction xs with
  | nil =>
    simp only [List.nil_append]
    cases ys with
    | nil => exact ⟨rfl, rfl⟩
    | cons c cs =>
      have hc := h2 c rfl
      exact ⟨List.takeWhile_cons_of_neg (by simp [hc]),
             List.dropWhile_cons_of_neg (by simp [hc])⟩
  | cons x xs ih =>
    simp only [List.all_cons, Bool.and_eq_true] at h1
    have hx := ih h1.2
    simp [List.cons_append, List.takeWhile_cons_of_pos h1.1,
          List.dropWhile_cons_of_pos h1.1, hx.1, hx.2]

theorem queryOpt_iff (t : List Char) :
    queryOpt t = true ↔ (t = [] ∨ ∃ q, t = '?' :: q ∧ q.all queryChar = true) := by
  cases t with
  | nil => simp [queryOpt]
  | cons c r =>
    unfold queryOpt
    by_cases hc : c = '?'
    · subst hc
      simp
    · simp [hc]

theorem tailMatch_iff (t : List Char) : tailMatch t = true ↔ TailGrammar t := by
  constructor
  · intro h
    cases t with
    | nil => exact ⟨[], [], rfl, Or.inl rfl, Or.inl rfl⟩
    | cons c r =>
      unfold tailMatch at h
      dsimp only at h
      split_ifs at h with hc hq
      · subst hc
        rw [Bool.and_eq_true] at h
        obtain ⟨hne, hqo⟩ := h
        refine ⟨'/' :: r.takeWhile subChar, r.dropWhile subChar, ?_, ?_, ?_⟩
        · rw [List.cons_append, List.takeWhile_append_dropWhile]
        · refine Or.inr ⟨r.takeWhile subChar, rfl, ?_, takeWhile_all _ _⟩
          simpa [List.isEmpty_iff] using hne
        · exact (queryOpt_iff _).mp hqo
      · subst hq
        exact ⟨[], '?' :: r, rfl, Or.inl rfl, Or.inr ⟨r, rfl, h⟩⟩
  · rintro ⟨sub, query, rfl, hsub, hq⟩
    rcases hsub with rfl | ⟨p, rfl, hpne, hpall⟩
    · rcases hq with rfl | ⟨q, rfl, hqall⟩
      · rfl
      · show tailMatch (([] : List Char) ++ '?' :: q) = true
        rw [List.nil_append]
        unfold tailMatch
        dsimp only
        rw [if_neg (by decide), if_pos rfl]
        exact hqall
    · have hqhead : ∀ c, query.head? = some c → subChar c = false := by
        rintro c hc
        rcases hq with rfl | ⟨q, rfl, _⟩
        · exact absurd hc (by simp)
        · simp only [List.head?_cons, Option.some_inj] at hc
          subst hc
          decide
      have hsplit := splitRun subChar p query hpall hqhead
      show tailMatch (('/' :: p) ++ query) = true
      rw [List.cons_append]
      unfold tailMatch
      dsimp only
      rw [if_pos rfl, hsplit.1, hsplit.2, Bool.and_eq_true]
      constructor
      · simpa [List.isEmpty_iff] using hpne
      · rw [queryOpt_iff]
        rcases hq with rfl | ⟨q, rfl, hqall⟩
        · exact Or.inl rfl
        · exact Or.inr ⟨q, rfl, hqall⟩

theorem tailGrammar_head (rest : List Char) (h : TailGrammar rest) :
    ∀ c, rest.head? = some c → idChar c = false := by
  rintro c hc
  obtain ⟨sub, query, rfl, hsub, hq⟩ := h
  rcases hsub with rfl | ⟨p, rfl, _, _⟩
  · rcases hq with rfl | ⟨q, rfl, _⟩
    · exact absurd hc (by simp)
    · simp only [List.nil_append, List.head?_cons, Option.some_inj] at hc
      subst hc
      decide
  · simp only [List.cons_append, List.head?_cons, Option.some_inj] at hc
    subst hc
    decide

theorem idAndTail_iff (r : List Char) :
    idAndTail r = true ↔
      ∃ id rest, r = id ++ rest ∧ id ≠ [] ∧ id.all idChar = true ∧ TailGrammar rest := by
  constructor
  · intro h
    unfold idAndTail at h
    rw [Bool.and_eq_true] at h
    obtain ⟨hne, ht⟩ := h
    refine ⟨r.takeWhile idChar, r.dropWhile idChar,
      (List.takeWhile_append_dropWhile ..).symm, ?_, takeWhile_all _ _, (tailMatch_iff _).mp ht⟩
    simpa [List.isEmpty_iff] using hne
  · rintro ⟨id, rest, rfl, hidne, hidall, htail⟩
    have hsplit := splitRun idChar id rest hidall (tailGrammar_head rest htail)
    unfold idAndTail
    rw [hsplit.1, hsplit.2, Bool.and_eq_true]
    constructor
    · simpa [List.isEmpty_iff] using hidne
    · exact (tailMatch_iff _).mpr htail

theorem matchFromSep_iff (cs : List Char) :
    matchFromSep cs = true ↔ ∃ r, cs = sepHostChars ++ r ∧ idAndTail r = true := by
  unfold matchFromSep
  cases hd : dropExact cs sepHostChars with
  | none =>
    simp only [Bool.false_eq_true, false_iff]
    rintro ⟨r, hcs, _⟩
    rw [(dropExact_eq_some_iff sepHostChars cs r).mpr hcs] at hd
    exact Option.noConfusion hd
  | some r =>
    have hcs := (dropExact_eq_some_iff sepHostChars cs r).mp hd
    constructor
    · intro h
      exact ⟨r, hcs, h⟩
    · rintro ⟨r2, hcs2, hit⟩
      have : r = r2 := by
        rw [hcs2] at hcs
        exact (List.append_cancel_left hcs.symm)
      rw [this]
      exact hit

theorem docsendUrlAccepts_iff (cs : List Char) :
    docsendUrlAccepts cs = true ↔ DocsendUrlGrammar cs := by
  constructor
  · intro h
    unfold docsendUrlAccepts at h
    cases hd : dropExact cs ['h', 't', 't', 'p'] with
    | none =>
      rw [hd] at h
      exact absurd h (by simp)
    | some rest =>
      rw [hd] at h
      have hcs : cs = ['h', 't', 't', 'p'] ++ rest := (dropExact_eq_some_iff _ _ _).mp hd
      cases rest with
      | nil => exact absurd h (by simp)
      | cons c r2 =>
        dsimp only at h
        split_ifs at h with hc
        · subst hc
          obtain ⟨r, hr, hit⟩ := (matchFromSep_iff r2).mp h
          obtain ⟨id, rest2, hre, hidne, hidall, htail⟩ := (idAndTail_iff r).mp hit
          refine ⟨true, id, rest2, ?_, hidne, hidall, htail⟩
          rw [hcs, hr, hre]
          simp
        · obtain ⟨r, hr, hit⟩ := (matchFromSep_iff (c :: r2)).mp h
          obtain ⟨id, rest2, hre, hidne, hidall, htail⟩ := (idAndTail_iff r).mp hit
          refine ⟨false, id, rest2, ?_, hidne, hidall, htail⟩
          rw [hcs, hr, hre]
          simp
  · rintro ⟨secure, id, rest, rfl, hidne, hidall, htail⟩
    have hit : idAndTail (id ++ rest) = true :=
      (idAndTail_iff _).mpr ⟨id, rest, rfl, hidne, hidall, htail⟩
    cases secure with
    | true =>
      have hsep : matchFromSep (sepHostChars ++ (id ++ rest)) = true :=
        (matchFromSep_iff _).mpr ⟨id ++ rest, rfl, hit⟩
      rw [if_pos rfl]
      rw [show (['h', 't', 't', 'p', 's'] ++ sepHostChars ++ id ++ rest : List Char)
            = ['h', 't', 't', 'p'] ++ ('s' :: (sepHostChars ++ (id ++ rest)))
          by simp [sepHostChars]]
      unfold docsendUrlAccepts
      rw [(dropExact_eq_some_iff _ _ _).mpr rfl]
      dsimp only
      rw [if_pos rfl]
      exact hsep
    | false =>
      have hsep : matchFromSep (sepHostChars ++ (id ++ rest)) = true :=
        (matchFromSep_iff _).mpr ⟨id ++ rest, rfl, hit⟩
      rw [if_neg (by decide)]
      rw [show (['h', 't', 't', 'p'] ++ sepHostChars ++ id ++ rest : List Char)
            = ['h', 't', 't', 'p'] ++ (':' :: (['/', '/', 'd', 'o', 'c', 's', 'e', 'n', 'd',
                '.', 'c', 'o', 'm', '/', 'v', 'i', 'e', 'w', '/'] ++ (id ++ rest)))
          by simp [sepHostChars]]
      unfold docsendUrlAccepts
      rw [(dropExact_eq_some_iff _ _ _).mpr rfl]
      dsimp only
      rw [if_neg (by decide)]
      exact hsep

theorem splitOnChar_ne_nil (sep : Char) (l : List Char) : splitOnChar sep l ≠ [] := by
  cases l with
  | nil => simp [splitOnChar]
  | cons c cs =>
    unfold splitOnChar
    split_ifs
    · simp
    · cases h : splitOnChar sep cs <;> simp

theorem splitOnChar_no_sep (sep : Char) (l : List Char) (h : ∀ c ∈ l, ¬ c = sep) :
    splitOnChar sep l = [l] := by
  induction l with
  | nil => rfl
  | cons c cs ih =>
    unfold splitOnChar
    rw [if_neg (h c (List.mem_cons_self _ _))]
    rw [ih (fun x hx => h x (List.mem_cons_of_mem _ hx))]

theorem extractDocId_view (idcs : List Char) (hno : ∀ c ∈ idcs, ¬ c = '/') :
    extractDocId ('/' :: 'v' :: 'i' :: 'e' :: 'w' :: '/' :: idcs) = idcs := by
  have h1 : splitOnChar '/' idcs = [idcs] := splitOnChar_no_sep _ _ hno
  unfold extractDocId
  simp [splitOnChar, h1]

theorem pathViewPattern_elim (p : List Char) (h : pathViewPattern p = true) :
    ∃ idcs, p = ['/', 'v', 'i', 'e', 'w', '/'] ++ idcs ∧ idcs ≠ [] ∧ idcs.all idChar = true := by
  unfold pathViewPattern at h
  cases hd : dropExact p ['/', 'v', 'i', 'e', 'w', '/'] with
  | none => rw [hd] at h; exact absurd h (by simp)
  | some idcs =>
    rw [hd] at h
    dsimp only at h
    rw [Bool.and_eq_true] at h
    refine ⟨idcs, (dropExact_eq_some_iff _ _ _).mp hd, ?_, h.2⟩
    simpa [List.isEmpty_iff] using h.1

theorem validateDocSendURL_ok_sound (url : String) (d c : List Char)
    (h : validateDocSendURL url = UrlValidation.ok d c) :
    d ≠ [] ∧ 3 ≤ d.length ∧ d.all idChar = true := by
  unfold validateDocSendURL at h
  split_ifs at h with hempty
  cases hp : urlParse (trimChars url.toList) with
  | none => rw [hp] at h; exact UrlValidation.noConfusion h
  | some u =>
    rw [hp] at h
    dsimp only at h
    split_ifs at h with h1 h2 h3 h4
    cases h
    simp only [not_lt] at h4
    simp only [Bool.not_eq_true', Bool.not_eq_false] at h3
    obtain ⟨idcs, hpath, hne, hall⟩ := pathViewPattern_elim u.pathname h3
    have hnosep : ∀ ch ∈ idcs, ¬ ch = '/' := by
      intro ch hch heq
      have := List.all_eq_true.mp hall ch hch
      subst heq
      exact absurd this (by decide)
    have hid : extractDocId u.pathname = idcs := by
      rw [hpath]
      exact extractDocId_view idcs hnosep
    refine ⟨?_, h4, hid ▸ hall⟩
    rw [hid]
    intro hnil
    subst hnil
    rw [hid] at h4
    simp at h4

theorem validateDocSendURL_err_sound (url : String) (m : String)
    (h : validateDocSendURL url = UrlValidation.err m) : m ≠ "" := by
  unfold validateDocSendURL at h
  split_ifs at h with hempty
  · cases h; decide
  · cases hp : urlParse (trimChars url.toList) with
    | none => rw [hp] at h; cases h; decide
    | some u =>
      rw [hp] at h
      dsimp only at h
      split_ifs at h <;> cases h <;> decide

/-- C6: locator validation.  The orchestrator's validator
(`validateDocSendUrl`, the one that raises the invalid-locator error at
job start) accepts exactly the locators of the document-reference
grammar — scheme `http`/`https`, host `docsend.com`, path `/view/` with
a non-empty alphanumeric document id, optional subpath and query — and
throws the invalid-locator error on every other input.  The locator
parser that extracts the identifier (`URLValidator.validateDocSendURL`)
returns a non-empty (indeed ≥ 3 characters, alphanumeric) document id on
every locator it accepts and a non-empty error on every input it
rejects. -/
theorem c6_locator_validation :
    (∀ url : String, validateDocSendUrl url = Except.ok () ↔ DocsendUrlGrammar url.toList)
    ∧ (∀ url : String, ¬ DocsendUrlGrammar url.toList →
        validateDocSendUrl url = Except.error
          "Invalid DocSend URL. Please provide a valid URL in the format: https://docsend.com/view/...")
    ∧ (∀ (url : String) (d c : List Char), validateDocSendURL url = UrlValidation.ok d c →
        d ≠ [] ∧ 3 ≤ d.length ∧ d.all idChar = true)
    ∧ (∀ (url m : String), validateDocSendURL url = UrlValidation.err m → m ≠ "") := by
  refine ⟨?_, ?_, validateDocSendURL_ok_sound, validateDocSendURL_err_sound⟩
  · intro url
    rw [← docsendUrlAccepts_iff]
    unfold validateDocSendUrl
    cases hacc : docsendUrlAccepts url.toList
    · simp
    · simp
  · intro url hng
    have hacc : docsendUrlAccepts url.toList = false := by
      cases hacc2 : docsendUrlAccepts url.toList
      · rfl
      · exact absurd ((docsendUrlAccepts_iff _).mp hacc2) hng
    unfold validateDocSendUrl
    rw [hacc]
    simp

/-- Witness for C6: `https://docsend.com/view/abc123` is accepted by
both validators (so it is in the grammar, and the extracted id `abc123`
is non-empty, 6 ≥ 3 characters, alphanumeric); `not-a-url` is rejected
by the orchestrator validator with the invalid-locator error, and the
empty string is rejected by the extracting validator with a non-empty
message. -/
theorem c6_locator_validation_witness :
    DocsendUrlGrammar "https://docsend.com/view/abc123".toList
    ∧ validateDocSendUrl "not-a-url" = Except.error
        "Invalid DocSend URL. Please provide a valid URL in the format: https://docsend.com/view/..."
    ∧ ((['a', 'b', 'c', '1', '2', '3'] : List Char) ≠ []
        ∧ 3 ≤ (['a', 'b', 'c', '1', '2', '3'] : List Char).length
        ∧ (['a', 'b', 'c', '1', '2', '3'] : List Char).all idChar = true)
    ∧ "URL cannot be empty" ≠ "" :=
  ⟨(c6_locator_validation.1 "https://docsend.com/view/abc123").mp rfl,
   c6_locator_validation.2.1 "not-a-url"
     (fun hg => absurd ((docsendUrlAccepts_iff _).mpr hg) (by decide)),
   c6_locator_validation.2.2.1 "https://docsend.com/view/abc123"
     ['a', 'b', 'c', '1', '2', '3']
     "https://docsend.com/view/abc123".toList rfl,
   c6_locator_validation.2.2.2 "" "URL cannot be empty" rfl⟩

end DocsendBot
